import Mathlib

/-!
Verification of the WHALE offline-first storage layer
(`src/frontend/js/storage.js`, class `WhaleStorageManager`, v2.6.0 with the
v2.4.0 revision alongside).

The JavaScript code is shallowly embedded as follows:

* A JS object is an association list `Obj := List (String × Val)`; a later
  binding for a key shadows an earlier one, exactly as repeated keys /
  spreads behave in a JS object literal, so `Obj.get` takes the *last*
  binding.  The spread `{...a, ...b}` is `a ++ b`.
* JS values occurring in the storage layer are strings, numbers, booleans
  and null/undefined (`Val`); `truthy` mirrors JS truthiness and `jsOr`
  mirrors the `a || b` default idiom.
* The PouchDB instance is a `DB`: a list of stored documents plus a
  revision counter.  `DB.put` mirrors PouchDB semantics: it requires an
  `_id`, rejects with a conflict a write whose `_rev` does not match the
  currently stored revision (or that targets an existing id without a
  matching `_rev`, or a fresh id while carrying a `_rev`), and otherwise
  stores the document with a freshly assigned revision.  `DB.remove`
  deletes by `_id` after the same revision check.  `DB.find` filters by a
  Mango-style selector (equality, `$gte`/`$lte` range, `$lt`).
* JS string comparison (used by Mango range queries and the `allDocs` key
  range) is code-unit lexicographic; it is embedded via `strKey`, mapping
  a string to its list of code points, compared with the lexicographic
  order on `List ℕ`.
* `Date.now()` timestamps, random id suffixes and the current user are
  passed as explicit parameters (`freshId`, `now`, `currentUser`), since
  the embedded functions are pure.
-/

namespace Whale

/-- JS values stored by the WHALE storage layer. -/
inductive Val where
  | str : String → Val
  | num : Int → Val
  | bool : Bool → Val
  | null : Val
deriving DecidableEq, Repr

/-- A JS object: an association list of fields.  A later binding shadows an
earlier one, as in a JS object literal built with spreads. -/
abbrev Obj := List (String × Val)

/-- Field lookup in a JS object: the last binding for the key wins. -/
def Obj.get : Obj → String → Option Val
  | [], _ => none
  | p :: rest, k => (Obj.get rest k).or (if p.1 = k then some p.2 else none)

/-- The JS `delete o[k]` operation: drop every binding of key `k`. -/
def Obj.removeKey (o : Obj) (k : String) : Obj :=
  o.filter (fun p => !(p.1 == k))

/-- JS truthiness of a possibly-absent value (`undefined`, `null`, `""`,
`0` and `false` are falsy). -/
def truthy : Option Val → Bool
  | none => false
  | some Val.null => false
  | some (Val.bool b) => b
  | some (Val.num n) => !(n == 0)
  | some (Val.str s) => !(s == "")

/-- The JS default idiom `a || b` applied to a possibly-absent value. -/
def jsOr (a : Option Val) (b : Val) : Val :=
  if truthy a then a.getD Val.null else b

/-- The `_id` of a document, as a string (stored documents always carry a
string `_id`). -/
def Obj.idStr (o : Obj) : String :=
  match o.get "_id" with
  | some (Val.str s) => s
  | _ => ""

/-- The string key used for JS lexicographic comparison: the list of code
points, ordered by the lexicographic order on `List ℕ`. -/
def strKey (s : String) : List Nat := s.data.map Char.toNat

/-- Errors surfaced by the embedded storage layer: PouchDB conflicts,
PouchDB missing-`_id` rejections, the `Document not found` errors thrown
by `update`/`delete`, and the invalid-backup error thrown by `import`. -/
inductive Err where
  | conflict : Err
  | missingId : Err
  | docNotFound : Err
  | invalidBackup : Err
deriving DecidableEq, Repr

/-- The PouchDB database: the stored documents and a revision counter
(PouchDB revision tokens are opaque; a global counter models their
freshness). -/
structure DB where
  docs : List Obj
  nextRev : Nat
deriving DecidableEq, Repr

/-- An empty database. -/
def emptyDB : DB := ⟨[], 0⟩

instance {α β : Type} [DecidableEq α] [DecidableEq β] : DecidableEq (Except α β) :=
  fun a b =>
    match a, b with
    | Except.ok x, Except.ok y =>
      if h : x = y then isTrue (by rw [h]) else isFalse (fun hh => h (by injection hh))
    | Except.error x, Except.error y =>
      if h : x = y then isTrue (by rw [h]) else isFalse (fun hh => h (by injection hh))
    | Except.ok _, Except.error _ => isFalse (fun hh => Except.noConfusion hh)
    | Except.error _, Except.ok _ => isFalse (fun hh => Except.noConfusion hh)

/-- `db.get(id)` at the PouchDB level: the stored document with the given
`_id`, if any. -/
def DB.getDoc (db : DB) (id : String) : Option Obj :=
  db.docs.find? (fun d => d.get "_id" == some (Val.str id))

/-- `db.put(doc)`: requires an `_id`; overwriting an existing document
requires a matching `_rev` and otherwise rejects with a conflict, as does
creating a fresh document while supplying a `_rev`.  A successful write
stores the document with a freshly assigned revision and returns that
revision. -/
def DB.put (db : DB) (doc : Obj) : Except Err (Val × DB) :=
  match doc.get "_id" with
  | some (Val.str id) =>
    match db.getDoc id with
    | some stored =>
      if (doc.get "_rev").isSome && (doc.get "_rev" == stored.get "_rev") then
        Except.ok (Val.num db.nextRev,
          { docs := db.docs.map (fun d =>
              if d.get "_id" == some (Val.str id) then doc ++ [("_rev", Val.num db.nextRev)] else d),
            nextRev := db.nextRev + 1 })
      else Except.error Err.conflict
    | none =>
      if (doc.get "_rev").isSome then Except.error Err.conflict
      else
        Except.ok (Val.num db.nextRev,
          { docs := db.docs ++ [doc ++ [("_rev", Val.num db.nextRev)]],
            nextRev := db.nextRev + 1 })
  | _ => Except.error Err.missingId

/-- `db.remove(doc)`: deletes the stored document with `doc`'s `_id`,
provided the supplied revision matches. -/
def DB.remove (db : DB) (doc : Obj) : Except Err DB :=
  match doc.get "_id" with
  | some (Val.str id) =>
    match db.getDoc id with
    | some stored =>
      if doc.get "_rev" == stored.get "_rev" then
        Except.ok { db with docs := db.docs.filter (fun d => !(d.get "_id" == some (Val.str id))) }
      else Except.error Err.conflict
    | none => Except.error Err.docNotFound
  | _ => Except.error Err.missingId

/-- One Mango selector condition: exact equality, a `$gte`/`$lte` range, or
a `$lt` upper bound (ranges in the storage layer are over date strings). -/
inductive Cond where
  | ceq : Val → Cond
  | crange : String → String → Cond
  | clt : String → Cond
deriving DecidableEq, Repr

/-- Whether a field value satisfies a selector condition; a missing field
never matches. -/
def condMatch : Cond → Option Val → Bool
  | Cond.ceq v, some w => v == w
  | Cond.crange lo hi, some (Val.str s) => decide (strKey lo ≤ strKey s) && decide (strKey s ≤ strKey hi)
  | Cond.clt hi, some (Val.str s) => decide (strKey s < strKey hi)
  | _, _ => false

/-- A Mango selector: a conjunction of per-field conditions. -/
abbrev Selector := List (String × Cond)

/-- Whether a document matches a selector. -/
def selMatch (sel : Selector) (d : Obj) : Bool :=
  sel.all (fun kc => condMatch kc.2 (d.get kc.1))

/-- `db.find({selector})`: the stored documents matching the selector. -/
def DB.find (db : DB) (sel : Selector) : List Obj :=
  db.docs.filter (selMatch sel)

/-- `db.find({selector, limit})`. -/
def DB.findLimit (db : DB) (sel : Selector) (n : Nat) : List Obj :=
  (db.find sel).take n

/-- The `allDocs` start/end key range check (inclusive bounds, JS string
order). -/
def inKeyRange (id lo hi : String) : Bool :=
  decide (strKey lo ≤ strKey id) && decide (strKey id ≤ strKey hi)

namespace Storage

/-- The document built by `WhaleStorageManager.save(type, data)` before the
`db.put`: `{_id: data._id || generated, type, ...data, createdAt:
data.createdAt || now, updatedAt: now}`, with `_rev` deleted when
`data._rev` is falsy.  The generated id `type_Date.now()_random` is
modelled as `type ++ "_" ++ freshId`. -/
def saveDoc (dtype : String) (data : Obj) (freshId now : String) : Obj :=
  let idVal := jsOr (data.get "_id") (Val.str (dtype ++ "_" ++ freshId))
  let createdAt := jsOr (data.get "createdAt") (Val.str now)
  let doc0 : Obj :=
    [("_id", idVal), ("type", Val.str dtype)] ++ data ++
      [("createdAt", createdAt), ("updatedAt", Val.str now)]
  if truthy (data.get "_rev") then doc0 else doc0.removeKey "_rev"

/-- `WhaleStorageManager.save(type, data)`: builds `saveDoc`, writes it via
`db.put` and returns `{...doc, _rev: result.rev}` together with the new
database state. -/
def save (db : DB) (dtype : String) (data : Obj) (freshId now : String) :
    Except Err (Obj × DB) :=
  match db.put (saveDoc dtype data freshId now) with
  | Except.ok (rev, db2) => Except.ok (saveDoc dtype data freshId now ++ [("_rev", rev)], db2)
  | Except.error e => Except.error e

/-- `WhaleStorageManager.get(id)`: point lookup returning `null` (here
`none`) for a missing id instead of throwing. -/
def get (db : DB) (id : String) : Option Obj :=
  db.getDoc id

/-- `WhaleStorageManager.update(id, updates)`: reads the current document,
throws `Document not found` when absent, spreads `{...doc, ...updates,
updatedAt: now}` and writes it via `db.put`. -/
def update (db : DB) (id : String) (updates : Obj) (now : String) :
    Except Err (Obj × DB) :=
  match get db id with
  | none => Except.error Err.docNotFound
  | some doc =>
    let updated := doc ++ updates ++ [("updatedAt", Val.str now)]
    match db.put updated with
    | Except.ok (rev, db2) => Except.ok (updated ++ [("_rev", rev)], db2)
    | Except.error e => Except.error e

/-- `WhaleStorageManager.delete(id)`: reads the current document, throws
`Document not found` when absent, removes it via `db.remove` and returns
`true`. -/
def delete (db : DB) (id : String) : Except Err (Bool × DB) :=
  match get db id with
  | none => Except.error Err.docNotFound
  | some doc =>
    match db.remove doc with
    | Except.ok db2 => Except.ok (true, db2)
    | Except.error e => Except.error e

/-- The probe selector used by the upsert pattern of `saveDailyRecord` /
`saveAttendance`: `{type: kind, userId: data.userId, dateField:
data[dateField]}`. -/
def upsertSel (kind dateField : String) (data : Obj) : Selector :=
  [("type", Cond.ceq (Val.str kind)),
   ("userId", Cond.ceq ((data.get "userId").getD Val.null)),
   (dateField, Cond.ceq ((data.get dateField).getD Val.null))]

/-- The shared body of `saveDailyRecord` and `saveAttendance`: probe with
`limit, 1` for an existing `(kind, userId, dateField)` document; if found,
`update(existing._id, {...data, organizationId})`, else
`save(kind, {...data, organizationId})`. -/
def upsertRecord (kind dateField : String) (orgId : Val) (db : DB)
    (data : Obj) (freshId now : String) : Except Err (Obj × DB) :=
  match db.findLimit (upsertSel kind dateField data) 1 with
  | doc :: _ => update db doc.idStr (data ++ [("organizationId", orgId)]) now
  | [] => save db kind (data ++ [("organizationId", orgId)]) freshId now

/-- `WhaleStorageManager.saveDailyRecord(data)`: resolves
`organizationId = data.organizationId || currentUser?.organizationId`,
then upserts on `(daily_record, userId, recordDate)`.  `currentUser`
stands for the result of `getCurrentUser()`. -/
def saveDailyRecord (db : DB) (currentUser : Option Obj) (data : Obj)
    (freshId now : String) : Except Err (Obj × DB) :=
  let orgId := jsOr (data.get "organizationId")
    (jsOr (currentUser.bind (fun u => u.get "organizationId")) Val.null)
  upsertRecord "daily_record" "recordDate" orgId db data freshId now

/-- `WhaleStorageManager.saveAttendance(data)`: resolves
`organizationId = currentUser?.organizationId`, then upserts on
`(attendance, userId, attendanceDate)`. -/
def saveAttendance (db : DB) (currentUser : Option Obj) (data : Obj)
    (freshId now : String) : Except Err (Obj × DB) :=
  let orgId := jsOr (currentUser.bind (fun u => u.get "organizationId")) Val.null
  upsertRecord "attendance" "attendanceDate" orgId db data freshId now

/-- `WhaleStorageManager.getOrganization(organizationId)`: returns `null`
for a falsy argument, else scans the `allDocs` key range
`organization_ .. organization_￰`, keeps documents of type
`organization` and returns the first with a matching `organizationId`. -/
def getOrganization (db : DB) (orgIdVal : Option Val) : Option Obj :=
  if truthy orgIdVal then
    ((db.docs.filter (fun d => inKeyRange d.idStr "organization_" "organization_￰")).filter
        (fun d => d.get "type" == some (Val.str "organization"))).find?
      (fun d => d.get "organizationId" == orgIdVal)
  else none

/-- The field list `createOrganization` passes to `save`
(absent fields become `undefined`, modelled as `null`). -/
def orgPayload (data : Obj) : Obj :=
  [("organizationId", (data.get "organizationId").getD Val.null),
   ("name", (data.get "name").getD Val.null),
   ("postalCode", (data.get "postalCode").getD Val.null),
   ("address", (data.get "address").getD Val.null),
   ("phone", (data.get "phone").getD Val.null),
   ("establishedDate", (data.get "establishedDate").getD Val.null)]

/-- `WhaleStorageManager.createOrganization(data)`: returns the existing
organization unchanged when `getOrganization(data.organizationId)` finds
one, else saves a fresh `organization` document with the listed fields. -/
def createOrganization (db : DB) (data : Obj) (freshId now : String) :
    Except Err (Obj × DB) :=
  match getOrganization db (data.get "organizationId") with
  | some existing => Except.ok (existing, db)
  | none => save db "organization" (orgPayload data) freshId now

/-- The `recordDate` of a document as a date string (missing or non-string
dates give `""`; the queried documents always carry string dates). -/
def recDate (d : Obj) : String :=
  match d.get "recordDate" with
  | some (Val.str s) => s
  | _ => ""

/-- Descending date order on documents, as produced by
`sort: [{recordDate: desc}]`. -/
def dateDesc (a b : Obj) : Prop :=
  strKey (recDate b) ≤ strKey (recDate a)

instance : DecidableRel dateDesc := fun a b =>
  inferInstanceAs (Decidable (strKey (recDate b) ≤ strKey (recDate a)))

instance : IsTotal Obj dateDesc :=
  ⟨fun a b => (le_total (strKey (recDate b)) (strKey (recDate a)))⟩

instance : IsTrans Obj dateDesc :=
  ⟨fun _ _ _ h1 h2 => le_trans h2 h1⟩

/-- The selector of `getDailyRecords(userId, startDate, endDate)`:
`{type: daily_record, userId, recordDate: {$gte: startDate, $lte:
endDate}}`. -/
def dailySel (userId : Val) (startDate endDate : String) : Selector :=
  [("type", Cond.ceq (Val.str "daily_record")),
   ("userId", Cond.ceq userId),
   ("recordDate", Cond.crange startDate endDate)]

/-- `WhaleStorageManager.getDailyRecords` (v2.6.0, index-assisted): the
matching documents sorted descending by `recordDate`.  PouchDB's
index-backed sorted `find` is modelled as filtering followed by a sort by
the index key. -/
def getDailyRecords (db : DB) (userId : Val) (startDate endDate : String) :
    List Obj :=
  List.insertionSort dateDesc (db.find (dailySel userId startDate endDate))

/-- `WhaleStorageManager.getDailyRecords` fallback path (v2.4.0): the same
non-sorted `find`, followed by the manual
`docs.sort((a, b) => new Date(b.recordDate) - new Date(a.recordDate))`.
On the ISO `YYYY-MM-DD` date strings stored in `recordDate`, numeric
`Date` order coincides with JS string order, so the comparator is
descending `recordDate` order; the in-place JS sort is modelled as a merge
sort by that comparator. -/
def getDailyRecordsFallback (db : DB) (userId : Val)
    (startDate endDate : String) : List Obj :=
  (db.find (dailySel userId startDate endDate)).mergeSort
    (fun a b => decide (dateDesc a b))

/-- `WhaleStorageManager.import(file)` after JSON parsing: `none` stands
for a parse result without a `documents` array (rejected as an invalid
backup); otherwise each document is written via `db.put`, a failed put is
caught and skipped, and `{imported, total}` is returned. -/
def importBackup (db : DB) (documents : Option (List Obj)) :
    Except Err (Nat × Nat × DB) :=
  match documents with
  | none => Except.error Err.invalidBackup
  | some docs =>
    let step := fun (st : Nat × DB) (doc : Obj) =>
      match st.2.put doc with
      | Except.ok (_, db2) => (st.1 + 1, db2)
      | Except.error _ => st
    let res := docs.foldl step (0, db)
    Except.ok (res.1, docs.length, res.2)

/-- The selector of `cleanOldData`: `{type: daily_record, recordDate:
{$lt: cutoff}}`. -/
def cleanSel (cutoff : String) : Selector :=
  [("type", Cond.ceq (Val.str "daily_record")),
   ("recordDate", Cond.clt cutoff)]

/-- The deletion loop of `cleanOldData`: remove each found document via
`db.remove`, counting the deletions; an error propagates (the JS loop is
not wrapped per-document). -/
def removeAll : DB → List Obj → Nat → Except Err (Nat × DB)
  | db, [], acc => Except.ok (acc, db)
  | db, doc :: rest, acc =>
    match db.remove doc with
    | Except.ok db2 => removeAll db2 rest (acc + 1)
    | Except.error e => Except.error e

/-- `WhaleStorageManager.cleanOldData(days)` after the cutoff date string
has been computed from `days` (the `Date` arithmetic producing
`cutoffStr` is kept external): find all `daily_record` documents with
`recordDate < cutoff` and delete each, returning the count. -/
def cleanOldData (db : DB) (cutoff : String) : Except Err (Nat × DB) :=
  removeAll db (db.find (cleanSel cutoff)) 0

end Storage

/-- The initialization-relevant state of a `WhaleStorageManager` (v2.6.0):
the `initialized` flag, the memoized `initializationPromise` (promise
identities are modelled as `Nat` tokens) and the number of
`_performInit` launches so far — each launch creates exactly one PouchDB
handle and runs `createIndexes` once. -/
structure InitState where
  initialized : Bool
  initializationPromise : Option Nat
  launches : Nat
deriving DecidableEq, Repr

/-- The state of a freshly constructed manager. -/
def initialState : InitState := ⟨false, none, 0⟩

/-- `WhaleStorageManager.init()` (v2.6.0): return the memoized in-flight
promise when one exists; return an already-resolved promise (`none`) when
initialization has completed; otherwise memoize a fresh promise and
launch `_performInit`.  The check and the assignment run with no `await`
between them, so in the JS run-to-completion model the whole step is
atomic. -/
def init (s : InitState) (fresh : Nat) : Option Nat × InitState :=
  match s.initializationPromise with
  | some p => (some p, s)
  | none =>
    if s.initialized then (none, s)
    else (some fresh,
      { s with initializationPromise := some fresh, launches := s.launches + 1 })

/-- A sequence of `init()` calls, all interleaved before the in-flight
`_performInit` completes; returns the promise each caller awaits and the
final state. -/
def initSeq : InitState → List Nat → List (Option Nat) × InitState
  | s, [] => ([], s)
  | s, f :: fs =>
    let (p, s2) := init s f
    let (ps, s3) := initSeq s2 fs
    (p :: ps, s3)

/-- A document that carries a string `_id`. -/
def strId (d : Obj) : Bool :=
  match d.get "_id" with
  | some (Val.str _) => true
  | _ => false

/-- A well-formed database: every stored document carries a string `_id`,
and ids are pairwise distinct (every state reachable through the storage
operations satisfies this). -/
def WellFormed (db : DB) : Prop :=
  (∀ d ∈ db.docs, strId d = true) ∧ (db.docs.map Obj.idStr).Nodup

instance (db : DB) : Decidable (WellFormed db) :=
  inferInstanceAs (Decidable (And _ _))

/-! ### Basic lemmas about the JS-object embedding -/

theorem Obj.get_append (a b : Obj) (k : String) :
    (a ++ b).get k = (b.get k).or (a.get k) := by
  induction a with
  | nil => cases h : b.get k <;> simp [Obj.get, h, Option.or_none]
  | cons p t ih => simp [Obj.get, ih, Option.or_assoc]

theorem Obj.get_cons (p : String × Val) (t : Obj) (k : String) :
    Obj.get (p :: t) k = (Obj.get t k).or (if p.1 = k then some p.2 else none) :=
  rfl

theorem Obj.get_removeKey_ne (o : Obj) (k k' : String) (h : k' ≠ k) :
    (o.removeKey k).get k' = o.get k' := by
  induction o with
  | nil => rfl
  | cons p t ih =>
    unfold Obj.removeKey at ih ⊢
    rw [List.filter_cons]
    by_cases hp : p.1 = k
    · rw [if_neg (by simp [hp])]
      rw [ih, Obj.get_cons]
      have hko : (p.1 = k') = False := eq_false (by rw [hp]; exact fun hh => h hh.symm)
      simp [hko]
    · rw [if_pos (by simp [hp]), Obj.get_cons, Obj.get_cons, ih]

theorem truthy_getD (o : Option Val) (h : truthy o = true) :
    some (o.getD Val.null) = o := by
  cases o with
  | none => simp [truthy] at h
  | some v => rfl

theorem Obj.idStr_of_strId (d : Obj) (h : strId d = true) :
    d.get "_id" = some (Val.str d.idStr) := by
  unfold strId at h
  unfold Obj.idStr
  cases hg : d.get "_id" with
  | none => rw [hg] at h; simp at h
  | some v =>
    cases v with
    | str s => rfl
    | num n => rw [hg] at h; simp at h
    | bool b => rw [hg] at h; simp at h
    | null => rw [hg] at h; simp at h

/-- Equality condition match: a field satisfies `ceq v` exactly when it is
present with value `v`. -/
theorem condMatch_ceq_iff (v : Val) (o : Option Val) :
    condMatch (Cond.ceq v) o = true ↔ o = some v := by
  cases o with
  | none => simp [condMatch]
  | some w =>
    show (v == w) = true ↔ some w = some v
    rw [beq_iff_eq]
    exact ⟨fun hh => by rw [hh], fun hh => by injection hh with hh; rw [hh]⟩

theorem condMatch_crange_iff (lo hi : String) (o : Option Val) :
    condMatch (Cond.crange lo hi) o = true ↔
      ∃ s, o = some (Val.str s) ∧ strKey lo ≤ strKey s ∧ strKey s ≤ strKey hi := by
  cases o with
  | none => simp [condMatch]
  | some w => cases w <;> simp [condMatch, decide_eq_true_iff, and_assoc]

theorem condMatch_clt_iff (hi : String) (o : Option Val) :
    condMatch (Cond.clt hi) o = true ↔
      ∃ s, o = some (Val.str s) ∧ strKey s < strKey hi := by
  cases o with
  | none => simp [condMatch]
  | some w => cases w <;> simp [condMatch, decide_eq_true_iff]

/-! ### Basic lemmas about the document database -/

theorem DB.getDoc_eq_some (db : DB) (id : String) (d : Obj)
    (h : db.getDoc id = some d) :
    d ∈ db.docs ∧ d.get "_id" = some (Val.str id) := by
  refine ⟨List.mem_of_find?_eq_some h, ?_⟩
  have := List.find?_some h
  simpa [beq_iff_eq] using this

theorem DB.getDoc_eq_none (db : DB) (id : String)
    (h : db.getDoc id = none) :
    ∀ d ∈ db.docs, ¬ d.get "_id" = some (Val.str id) := by
  intro d hd
  have := List.find?_eq_none.mp h d hd
  simpa [beq_iff_eq] using this

/-- In a list of documents with pairwise-distinct string ids, searching for
the id of a member finds exactly that member. -/
theorem find?_id_of_mem (l : List Obj) (d : Obj)
    (hids : ∀ x ∈ l, strId x = true)
    (hnd : (l.map Obj.idStr).Nodup)
    (hd : d ∈ l) :
    l.find? (fun x => x.get "_id" == some (Val.str d.idStr)) = some d := by
  induction l with
  | nil => cases hd
  | cons a t ih =>
    rw [List.map_cons, List.nodup_cons] at hnd
    have h1 := Obj.idStr_of_strId a (hids a (List.mem_cons_self a t))
    rcases List.mem_cons.mp hd with heq | hdt
    · rw [heq, List.find?_cons]
      simp [h1]
    · have hane : a.idStr ≠ d.idStr := by
        intro hcontra
        exact hnd.1 (hcontra ▸ List.mem_map.mpr ⟨d, hdt, rfl⟩)
      have h2 : ((a.get "_id") == some (Val.str d.idStr)) = false := by
        rw [h1, beq_eq_false_iff_ne]
        simp [hane]
      rw [List.find?_cons]
      simp only [h2]
      exact ih (fun x hx => hids x (List.mem_cons_of_mem a hx)) hnd.2 hdt

/-- In a well-formed database, looking up the id of a stored document finds
that document. -/
theorem DB.getDoc_of_mem (db : DB) (d : Obj) (hwf : WellFormed db)
    (hd : d ∈ db.docs) : db.getDoc d.idStr = some d :=
  find?_id_of_mem db.docs d hwf.1 hwf.2 hd

theorem Obj.get_singleton (x : String) (v : Val) (k : String) :
    Obj.get [(x, v)] k = if x = k then some v else none :=
  rfl

/-- A successful fresh insert: `put` of a document with a fresh string id
and no `_rev` appends the document stamped with the next revision. -/
theorem DB.put_fresh (db : DB) (doc : Obj) (id : String)
    (hid : doc.get "_id" = some (Val.str id))
    (hnone : db.getDoc id = none) (hrev : doc.get "_rev" = none) :
    db.put doc = Except.ok (Val.num db.nextRev,
      ⟨db.docs ++ [doc ++ [("_rev", Val.num db.nextRev)]], db.nextRev + 1⟩) := by
  simp [DB.put, hid, hnone, hrev]

/-- A successful overwrite: `put` of a document whose `_rev` matches the
stored revision replaces the stored document, stamped with the next
revision. -/
theorem DB.put_existing (db : DB) (doc : Obj) (id : String) (stored : Obj)
    (hid : doc.get "_id" = some (Val.str id))
    (hstored : db.getDoc id = some stored)
    (hrev : doc.get "_rev" = stored.get "_rev")
    (hsome : (doc.get "_rev").isSome = true) :
    db.put doc = Except.ok (Val.num db.nextRev,
      ⟨db.docs.map (fun d =>
          if d.get "_id" == some (Val.str id) then doc ++ [("_rev", Val.num db.nextRev)] else d),
        db.nextRev + 1⟩) := by
  have hsome2 : (stored.get "_rev").isSome = true := hrev ▸ hsome
  simp [DB.put, hid, hstored, hrev, hsome2]

/-- A conflicting overwrite: `put` of a document targeting an existing id
with a non-matching (or absent) `_rev` is rejected and the state is
unchanged. -/
theorem DB.put_conflict (db : DB) (doc : Obj) (id : String) (stored : Obj)
    (hid : doc.get "_id" = some (Val.str id))
    (hstored : db.getDoc id = some stored)
    (hne : ¬ doc.get "_rev" = stored.get "_rev") :
    db.put doc = Except.error Err.conflict := by
  have hb : (doc.get "_rev" == stored.get "_rev") = false := beq_eq_false_iff_ne.mpr hne
  simp [DB.put, hid, hstored, hb]

/-- After replacing the document stored at `id` (as `put` does on an
overwrite), looking up `id` yields the replacement. -/
theorem DB.getDoc_map_replace (docs : List Obj) (m : Nat) (id : String) (nd : Obj)
    (hnd : nd.get "_id" = some (Val.str id)) (stored : Obj)
    (hfind : docs.find? (fun d => d.get "_id" == some (Val.str id)) = some stored) :
    (DB.mk (docs.map (fun d =>
        if d.get "_id" == some (Val.str id) then nd else d)) m).getDoc id = some nd := by
  unfold DB.getDoc
  simp only
  induction docs with
  | nil => simp at hfind
  | cons a t ih =>
    have hb : (nd.get "_id" == some (Val.str id)) = true := by
      rw [hnd]; exact beq_self_eq_true _
    cases hc : (a.get "_id" == some (Val.str id)) with
    | true =>
      rw [List.map_cons, if_pos hc]
      exact @List.find?_cons_of_pos _ (fun d => d.get "_id" == some (Val.str id)) nd
        (List.map (fun d => if d.get "_id" == some (Val.str id) then nd else d) t) hb
    | false =>
      have hfind2 : t.find? (fun d => d.get "_id" == some (Val.str id)) = some stored := by
        rwa [@List.find?_cons_of_neg _ (fun d => d.get "_id" == some (Val.str id)) a t
          (by simp [hc])] at hfind
      rw [List.map_cons, if_neg (by simp [hc]),
        @List.find?_cons_of_neg _ (fun d => d.get "_id" == some (Val.str id)) a
          (List.map (fun d => if d.get "_id" == some (Val.str id) then nd else d) t)
          (by simp [hc])]
      exact ih hfind2

/-- After a fresh append (as `put` does on an insert), looking up the new
id yields the appended document. -/
theorem DB.getDoc_append_fresh (docs : List Obj) (m : Nat) (id : String) (nd : Obj)
    (hnd : nd.get "_id" = some (Val.str id))
    (hnone : ∀ d ∈ docs, ¬ d.get "_id" = some (Val.str id)) :
    (DB.mk (docs ++ [nd]) m).getDoc id = some nd := by
  unfold DB.getDoc
  simp only [List.find?_append]
  have h1 : docs.find? (fun d => d.get "_id" == some (Val.str id)) = none := by
    rw [List.find?_eq_none]
    intro d hd
    simp [beq_iff_eq]
    exact hnone d hd
  rw [h1]
  simp [List.find?_cons, hnd]

/-! ### C3: memoized concurrent initialization -/

/-- Once the in-flight promise is memoized, every further `init()` call
returns that same promise and leaves the state unchanged. -/
theorem initSeq_memo (f L : Nat) (fs : List Nat) :
    initSeq ⟨false, some f, L⟩ fs = (fs.map (fun _ => some f), ⟨false, some f, L⟩) := by
  induction fs with
  | nil => rfl
  | cons g gs ih => simp [initSeq, init, ih]

/-- C3: if `initialize()` (`init`) is called again while a previous
`initialize()` is still in flight, every such caller awaits the same single
in-flight initialization: all calls of a nonempty pre-completion call
sequence started on a fresh manager obtain the first call's promise, and
`_performInit` is launched exactly once, so exactly one PouchDB handle is
created and `createIndexes` runs once. -/
theorem init_concurrent_memoized (f : Nat) (fs : List Nat)
    (ps : List (Option Nat)) (s : InitState)
    (h : initSeq initialState (f :: fs) = (ps, s)) :
    (∀ p ∈ ps, p = some f) ∧ s.launches = 1 ∧ s.initializationPromise = some f := by
  have h1 : initSeq initialState (f :: fs) =
      (some f :: fs.map (fun _ => some f), ⟨false, some f, 1⟩) := by
    simp [initSeq, init, initialState, initSeq_memo]
  rw [h1] at h
  injection h with h2 h3
  subst h2
  subst h3
  refine ⟨?_, rfl, rfl⟩
  intro p hp
  rcases List.mem_cons.mp hp with heq | hmem
  · exact heq
  · rcases List.mem_map.mp hmem with ⟨q, _, rfl⟩
    rfl

/-- Witness for C3: three overlapping `init()` calls on a fresh manager all
await promise `5`, with a single `_performInit` launch. -/
theorem init_concurrent_memoized_witness :
    (∀ p ∈ [some 5, some 5, some 5], p = some 5) ∧
      (⟨false, some 5, 1⟩ : InitState).launches = 1 ∧
      (⟨false, some 5, 1⟩ : InitState).initializationPromise = some 5 :=
  init_concurrent_memoized 5 [9, 11] [some 5, some 5, some 5] ⟨false, some 5, 1⟩ (by decide)

/-! ### C6: delete semantics -/

/-- C6 counterexample: deleting an absent id is an error in the code —
`delete` on an empty store throws `Document not found` instead of
returning a boolean, refuting the claimed idempotence. -/
theorem delete_missing_throws :
    Storage.delete emptyDB "missing" = Except.error Err.docNotFound :=
  rfl

/-- C6 (amended): `delete(id)` removes the document and returns `true`
when `id` exists; when `id` is absent (including a second delete of the
same id) it throws `Document not found` rather than succeeding. -/
theorem delete_spec (db : DB) (id : String) :
    (∀ d, Storage.get db id = some d →
      Storage.delete db id =
        Except.ok (true,
          ⟨db.docs.filter (fun x => !(x.get "_id" == some (Val.str id))), db.nextRev⟩)) ∧
    (Storage.get db id = none → Storage.delete db id = Except.error Err.docNotFound) := by
  constructor
  · intro d hd
    have hd' : db.getDoc id = some d := hd
    have hid := (DB.getDoc_eq_some db id d hd').2
    simp [Storage.delete, Storage.get, hd', DB.remove, hid]
  · intro h
    simp [Storage.delete, Storage.get, show db.getDoc id = none from h]

/-- Witness for C6 at a concrete store: deleting the present id `d1`
succeeds with `true` and removes it. -/
theorem delete_spec_witness :
    Storage.delete ⟨[[("_id", Val.str "d1"), ("type", Val.str "user"), ("_rev", Val.num 0)]], 1⟩ "d1" =
      Except.ok (true,
        ⟨(⟨[[("_id", Val.str "d1"), ("type", Val.str "user"), ("_rev", Val.num 0)]], 1⟩ : DB).docs.filter
            (fun x => !(x.get "_id" == some (Val.str "d1"))),
          (⟨[[("_id", Val.str "d1"), ("type", Val.str "user"), ("_rev", Val.num 0)]], 1⟩ : DB).nextRev⟩) :=
  (delete_spec ⟨[[("_id", Val.str "d1"), ("type", Val.str "user"), ("_rev", Val.num 0)]], 1⟩ "d1").1
    [("_id", Val.str "d1"), ("type", Val.str "user"), ("_rev", Val.num 0)] rfl

/-! ### C5: update merge semantics -/

/-- Unfolding `update` once the current document is known. -/
theorem Storage.update_eq_of_get (db : DB) (id : String) (updates : Obj)
    (now : String) (doc : Obj) (h : Storage.get db id = some doc) :
    Storage.update db id updates now =
      (match db.put (doc ++ updates ++ [("updatedAt", Val.str now)]) with
       | Except.ok (rev, db2) =>
         Except.ok (doc ++ updates ++ [("updatedAt", Val.str now)] ++ [("_rev", rev)], db2)
       | Except.error e => Except.error e) := by
  unfold Storage.update
  rw [h]

/-- C5 counterexample: `update` does not protect `type` / `createdAt` —
updating the stored document `d1` with `{type: "other", createdAt: "t9"}`
overwrites both fields, refuting the claim that `id`/`type`/`createdAt`
are never overwritten when present in `partialFields`. -/
theorem update_overwrites_protected_fields :
    (match Storage.update
        ⟨[[("_id", Val.str "d1"), ("type", Val.str "user"),
           ("createdAt", Val.str "t0"), ("_rev", Val.num 0)]], 1⟩ "d1"
        [("type", Val.str "other"), ("createdAt", Val.str "t9")] "t1" with
     | Except.ok (r, _) => (r.get "type", r.get "createdAt")
     | Except.error _ => (none, none)) =
    (some (Val.str "other"), some (Val.str "t9")) := by decide

/-- C5 (amended): for an existing id, `update(id, partialFields)`
shallow-merges the current document with `partialFields`, `partialFields`
winning for **every** key it contains — including `type` and `createdAt` —
then re-stamps `updatedAt` and stores the result; for an absent id it
fails with `Document not found`.  (Stated for `partialFields` without
`_id`/`_rev` keys, as at every call site, and a stored document carrying a
revision.) -/
theorem update_spec (db : DB) (id : String) (updates : Obj) (now : String) :
    (∀ doc, Storage.get db id = some doc → (doc.get "_rev").isSome = true →
      updates.get "_id" = none → updates.get "_rev" = none →
      ∃ r db2, Storage.update db id updates now = Except.ok (r, db2) ∧
        (∀ k, k ≠ "updatedAt" → k ≠ "_rev" → r.get k = (updates.get k).or (doc.get k)) ∧
        r.get "updatedAt" = some (Val.str now) ∧
        Storage.get db2 id = some r) ∧
    (Storage.get db id = none →
      Storage.update db id updates now = Except.error Err.docNotFound) := by
  constructor
  · intro doc hdoc hrev hu1 hu2
    have hdoc' : db.getDoc id = some doc := hdoc
    have hid := (DB.getDoc_eq_some db id doc hdoc').2
    have hget : ∀ k, k ≠ "updatedAt" →
        Obj.get (doc ++ (updates ++ [("updatedAt", Val.str now)])) k =
          (updates.get k).or (doc.get k) := by
      intro k hk
      rw [Obj.get_append, Obj.get_append, Obj.get_singleton,
        if_neg (fun hh => hk hh.symm), Option.none_or]
    have hgid : Obj.get (doc ++ (updates ++ [("updatedAt", Val.str now)])) "_id" =
        some (Val.str id) := by
      rw [hget "_id" (by decide), hu1, Option.none_or, hid]
    have hgrev : Obj.get (doc ++ (updates ++ [("updatedAt", Val.str now)])) "_rev" =
        doc.get "_rev" := by
      rw [hget "_rev" (by decide), hu2, Option.none_or]
    have hput := DB.put_existing db (doc ++ (updates ++ [("updatedAt", Val.str now)])) id doc
      hgid hdoc' (by rw [hgrev]) (by rw [hgrev]; exact hrev)
    refine ⟨doc ++ (updates ++ [("updatedAt", Val.str now)]) ++ [("_rev", Val.num db.nextRev)],
      ⟨db.docs.map (fun d =>
          if d.get "_id" == some (Val.str id) then
            doc ++ (updates ++ [("updatedAt", Val.str now)]) ++ [("_rev", Val.num db.nextRev)]
          else d),
        db.nextRev + 1⟩, ?_, ?_, ?_, ?_⟩
    · rw [Storage.update_eq_of_get db id updates now doc hdoc]
      rw [List.append_assoc, hput]
    · intro k hk1 hk2
      rw [Obj.get_append, Obj.get_singleton, if_neg (fun hh => hk2 hh.symm),
        Option.none_or, hget k hk1]
    · rw [Obj.get_append, Obj.get_singleton,
        if_neg (fun hh => (by decide : ("_rev" : String) ≠ "updatedAt") hh), Option.none_or,
        Obj.get_append, Obj.get_append, Obj.get_singleton, if_pos rfl, Option.or_some,
        Option.or_some]
    · have hnd : Obj.get (doc ++ (updates ++ [("updatedAt", Val.str now)]) ++
          [("_rev", Val.num db.nextRev)]) "_id" = some (Val.str id) := by
        rw [Obj.get_append, Obj.get_singleton, if_neg (by decide), Option.none_or, hgid]
      exact DB.getDoc_map_replace db.docs (db.nextRev + 1) id _ hnd doc hdoc'
  · intro h
    unfold Storage.update
    rw [h]

/-- Witness for C5 at a concrete store: updating `d1` with `{memo: "hi"}`
succeeds, the merge keeps old fields and takes new ones, and the result is
retrievable. -/
theorem update_spec_witness :
    ∃ r db2, Storage.update
        ⟨[[("_id", Val.str "d1"), ("type", Val.str "user"),
           ("createdAt", Val.str "t0"), ("_rev", Val.num 0)]], 1⟩ "d1"
        [("memo", Val.str "hi")] "t1" = Except.ok (r, db2) ∧
      (∀ k, k ≠ "updatedAt" → k ≠ "_rev" →
        r.get k = (Obj.get [("memo", Val.str "hi")] k).or
          (Obj.get [("_id", Val.str "d1"), ("type", Val.str "user"),
            ("createdAt", Val.str "t0"), ("_rev", Val.num 0)] k)) ∧
      r.get "updatedAt" = some (Val.str "t1") ∧
      Storage.get db2 "d1" = some r :=
  (update_spec ⟨[[("_id", Val.str "d1"), ("type", Val.str "user"),
      ("createdAt", Val.str "t0"), ("_rev", Val.num 0)]], 1⟩ "d1"
      [("memo", Val.str "hi")] "t1").1
    [("_id", Val.str "d1"), ("type", Val.str "user"),
      ("createdAt", Val.str "t0"), ("_rev", Val.num 0)] rfl rfl rfl rfl

/-! ### C4: revision-conflict rejection -/

theorem Storage.saveDoc_of_rev_truthy (dtype : String) (data : Obj) (f n : String)
    (h : truthy (data.get "_rev") = true) :
    Storage.saveDoc dtype data f n =
      [("_id", jsOr (data.get "_id") (Val.str (dtype ++ "_" ++ f))), ("type", Val.str dtype)] ++
        data ++
        [("createdAt", jsOr (data.get "createdAt") (Val.str n)), ("updatedAt", Val.str n)] := by
  simp [Storage.saveDoc, h]

theorem Storage.saveDoc_of_rev_falsy (dtype : String) (data : Obj) (f n : String)
    (h : truthy (data.get "_rev") = false) :
    Storage.saveDoc dtype data f n =
      Obj.removeKey
        ([("_id", jsOr (data.get "_id") (Val.str (dtype ++ "_" ++ f))), ("type", Val.str dtype)] ++
          data ++
          [("createdAt", jsOr (data.get "createdAt") (Val.str n)),
           ("updatedAt", Val.str n)]) "_rev" := by
  simp [Storage.saveDoc, h]

/-- Splitting the field lookup of the three-block document built by
`save`. -/
theorem get_block (idv ca : Val) (dtype now : String) (data : Obj) (k : String) :
    Obj.get ([("_id", idv), ("type", Val.str dtype)] ++ data ++
        [("createdAt", ca), ("updatedAt", Val.str now)]) k =
      (Obj.get [("createdAt", ca), ("updatedAt", Val.str now)] k).or
        ((data.get k).or (Obj.get [("_id", idv), ("type", Val.str dtype)] k)) := by
  rw [Obj.get_append, Obj.get_append]

/-- C4: a write that supplies a revision different from the currently
stored revision of its target id fails with a conflict instead of silently
overwriting — both for `save` (`put`) with a stale `_rev` in `data` and
for `update` with a stale `_rev` among its partial fields.  The `Except`
embedding returns no successor state on an error, so the stored document
is left unchanged by construction. -/
theorem conflict_on_stale_revision (db : DB) (dtype : String)
    (data updates : Obj) (f n now id : String) (stored : Obj) (rv : Val)
    (hstored : Storage.get db id = some stored)
    (hne : stored.get "_rev" ≠ some rv)
    (hdid : data.get "_id" = some (Val.str id))
    (hdrev : data.get "_rev" = some rv)
    (htr : truthy (some rv) = true)
    (hu1 : updates.get "_id" = none)
    (hu2 : updates.get "_rev" = some rv) :
    Storage.save db dtype data f n = Except.error Err.conflict ∧
    Storage.update db id updates now = Except.error Err.conflict := by
  have hstored' : db.getDoc id = some stored := hstored
  constructor
  · have h5 : truthy (data.get "_rev") = true := by rw [hdrev]; exact htr
    have hsd := Storage.saveDoc_of_rev_truthy dtype data f n h5
    have hBid : Obj.get [("createdAt", jsOr (data.get "createdAt") (Val.str n)),
        ("updatedAt", Val.str n)] "_id" = none := rfl
    have hBrev : Obj.get [("createdAt", jsOr (data.get "createdAt") (Val.str n)),
        ("updatedAt", Val.str n)] "_rev" = none := rfl
    have hsid : (Storage.saveDoc dtype data f n).get "_id" = some (Val.str id) := by
      rw [hsd, get_block, hBid, Option.none_or, hdid, Option.or_some]
    have hsrev : (Storage.saveDoc dtype data f n).get "_rev" = some rv := by
      rw [hsd, get_block, hBrev, Option.none_or, hdrev, Option.or_some]
    have hputc := DB.put_conflict db (Storage.saveDoc dtype data f n) id stored hsid hstored'
      (by rw [hsrev]; exact fun hh => hne hh.symm)
    unfold Storage.save
    rw [hputc]
  · have hgrev : Obj.get (stored ++ (updates ++ [("updatedAt", Val.str now)])) "_rev" =
        some rv := by
      rw [Obj.get_append, Obj.get_append, Obj.get_singleton, if_neg (by decide),
        Option.none_or, hu2, Option.or_some]
    have hgid2 := (DB.getDoc_eq_some db id stored hstored').2
    have hgid : Obj.get (stored ++ (updates ++ [("updatedAt", Val.str now)])) "_id" =
        some (Val.str id) := by
      rw [Obj.get_append, Obj.get_append, Obj.get_singleton, if_neg (by decide),
        Option.none_or, hu1, Option.none_or, hgid2]
    have hputc := DB.put_conflict db (stored ++ (updates ++ [("updatedAt", Val.str now)])) id
      stored hgid hstored' (by rw [hgrev]; exact fun hh => hne hh.symm)
    rw [Storage.update_eq_of_get db id updates now stored hstored]
    rw [List.append_assoc, hputc]

/-- Witness for C4 at a concrete store: the stored `d1` has revision `0`;
a `save` and an `update` each supplying revision `5` are both rejected
with a conflict. -/
theorem conflict_on_stale_revision_witness :
    Storage.save ⟨[[("_id", Val.str "d1"), ("type", Val.str "user"), ("_rev", Val.num 0)]], 1⟩
        "user" [("_id", Val.str "d1"), ("_rev", Val.num 5), ("name", Val.str "B")] "f" "t" =
      Except.error Err.conflict ∧
    Storage.update ⟨[[("_id", Val.str "d1"), ("type", Val.str "user"), ("_rev", Val.num 0)]], 1⟩
        "d1" [("_rev", Val.num 5), ("name", Val.str "B")] "t" =
      Except.error Err.conflict :=
  conflict_on_stale_revision
    ⟨[[("_id", Val.str "d1"), ("type", Val.str "user"), ("_rev", Val.num 0)]], 1⟩ "user"
    [("_id", Val.str "d1"), ("_rev", Val.num 5), ("name", Val.str "B")]
    [("_rev", Val.num 5), ("name", Val.str "B")] "f" "t" "t" "d1"
    [("_id", Val.str "d1"), ("type", Val.str "user"), ("_rev", Val.num 0)] (Val.num 5)
    rfl (by decide) rfl rfl rfl rfl rfl

/-! ### C2: save / get round trip -/

theorem Obj.idStr_of_get (r : Obj) (id : String)
    (h : r.get "_id" = some (Val.str id)) : r.idStr = id := by
  unfold Obj.idStr
  rw [h]

/-- Inversion of a successful `db.put`. -/
theorem DB.put_ok_inv (db : DB) (doc : Obj) (rev : Val) (db2 : DB)
    (h : db.put doc = Except.ok (rev, db2)) :
    rev = Val.num db.nextRev ∧ db2.nextRev = db.nextRev + 1 ∧
    ∃ id, doc.get "_id" = some (Val.str id) ∧
      ((db.getDoc id = none ∧ doc.get "_rev" = none ∧
          db2.docs = db.docs ++ [doc ++ [("_rev", Val.num db.nextRev)]]) ∨
       (∃ stored, db.getDoc id = some stored ∧ doc.get "_rev" = stored.get "_rev" ∧
          db2.docs = db.docs.map (fun d =>
            if d.get "_id" == some (Val.str id) then doc ++ [("_rev", Val.num db.nextRev)]
            else d))) := by
  unfold DB.put at h
  split at h
  case _ id heq =>
    split at h
    case _ stored hstored =>
      split at h
      case isTrue hcond =>
        injection h with h1
        injection h1 with h2 h3
        rw [Bool.and_eq_true] at hcond
        refine ⟨h2.symm, by rw [← h3], id, heq, Or.inr ⟨stored, hstored, ?_, by rw [← h3]⟩⟩
        exact beq_iff_eq.mp hcond.2
      case isFalse hcond => exact Except.noConfusion h
    case _ hnone =>
      split at h
      case isTrue hsome => exact Except.noConfusion h
      case isFalse hsome =>
        injection h with h1
        injection h1 with h2 h3
        refine ⟨h2.symm, by rw [← h3], id, heq, Or.inl ⟨hnone, ?_, by rw [← h3]⟩⟩
        cases hrv : doc.get "_rev"
        · rfl
        · exact absurd (by rw [hrv]; rfl) hsome
  case _ hother => exact Except.noConfusion h

/-- For any key other than `_rev`, the saved document looks up like its
underlying three-block object, whether or not `_rev` was deleted. -/
theorem saveDoc_get_ne_rev (dtype : String) (data : Obj) (f n k : String)
    (hk : k ≠ "_rev") :
    (Storage.saveDoc dtype data f n).get k =
      Obj.get ([("_id", jsOr (data.get "_id") (Val.str (dtype ++ "_" ++ f))),
          ("type", Val.str dtype)] ++ data ++
          [("createdAt", jsOr (data.get "createdAt") (Val.str n)),
           ("updatedAt", Val.str n)]) k := by
  cases htr : truthy (data.get "_rev") with
  | true => rw [Storage.saveDoc_of_rev_truthy dtype data f n htr]
  | false => rw [Storage.saveDoc_of_rev_falsy dtype data f n htr, Obj.get_removeKey_ne _ _ _ hk]

/-- C2: after a successful `save` (the storage layer's `put`), `get` of
the returned document's id returns exactly the returned document; that
document agrees with the caller's `data` on every field other than the
envelope fields stamped by the store, preserves a (truthy) caller-supplied
`createdAt`, and carries a freshly assigned `updatedAt` and `_rev`. -/
theorem save_get_roundtrip (db : DB) (dtype : String) (data : Obj)
    (f n : String) (r : Obj) (db2 : DB)
    (hok : Storage.save db dtype data f n = Except.ok (r, db2))
    (hca : truthy (data.get "createdAt") = true) :
    Storage.get db2 r.idStr = some r ∧
    (∀ k, k ≠ "_id" → k ≠ "type" → k ≠ "_rev" → k ≠ "createdAt" → k ≠ "updatedAt" →
      r.get k = data.get k) ∧
    r.get "createdAt" = data.get "createdAt" ∧
    r.get "updatedAt" = some (Val.str n) ∧
    r.get "_rev" = some (Val.num db.nextRev) := by
  unfold Storage.save at hok
  cases hput : db.put (Storage.saveDoc dtype data f n) with
  | error e => rw [hput] at hok; exact Except.noConfusion hok
  | ok p =>
    rw [hput] at hok
    injection hok with h1
    injection h1 with h2 h3
    obtain ⟨hrev, hnext, id, hid, hcases⟩ := DB.put_ok_inv db _ p.1 p.2 (by rw [hput])
    rw [hrev] at h2
    have hrget : ∀ k, k ≠ "_rev" → r.get k = (Storage.saveDoc dtype data f n).get k := by
      intro k hk
      rw [← h2, Obj.get_append, Obj.get_singleton, if_neg (fun hh => hk hh.symm),
        Option.none_or]
    have hrrev : r.get "_rev" = some (Val.num db.nextRev) := by
      rw [← h2, Obj.get_append, Obj.get_singleton, if_pos rfl, Option.or_some]
    have hrid : r.get "_id" = some (Val.str id) := by rw [hrget "_id" (by decide), hid]
    have hridstr : r.idStr = id := Obj.idStr_of_get r id hrid
    refine ⟨?_, ?_, ?_, ?_, hrrev⟩
    · rw [hridstr]
      show db2.getDoc id = some r
      rcases hcases with ⟨hnone, hrv, hdocs⟩ | ⟨stored, hstored, hrv, hdocs⟩
      · have heq : db2.getDoc id = DB.getDoc ⟨db.docs ++
            [Storage.saveDoc dtype data f n ++ [("_rev", Val.num db.nextRev)]], db2.nextRev⟩ id := by
          unfold DB.getDoc
          rw [← h3, hdocs]
        rw [heq, h2]
        exact DB.getDoc_append_fresh db.docs db2.nextRev id r hrid
          (DB.getDoc_eq_none db id hnone)
      · have heq : db2.getDoc id = DB.getDoc ⟨db.docs.map (fun d =>
            if d.get "_id" == some (Val.str id) then
              Storage.saveDoc dtype data f n ++ [("_rev", Val.num db.nextRev)]
            else d), db2.nextRev⟩ id := by
          unfold DB.getDoc
          rw [← h3, hdocs]
        rw [heq, h2]
        exact DB.getDoc_map_replace db.docs db2.nextRev id r hrid stored hstored
    · intro k hk1 hk2 hk3 hk4 hk5
      rw [hrget k hk3, saveDoc_get_ne_rev dtype data f n k hk3, get_block]
      have hB : Obj.get [("createdAt", jsOr (data.get "createdAt") (Val.str n)),
          ("updatedAt", Val.str n)] k = none := by
        rw [Obj.get_cons, Obj.get_singleton, if_neg (fun hh => hk5 hh.symm),
          if_neg (fun hh => hk4 hh.symm)]
        rfl
      have hA : Obj.get [("_id", jsOr (data.get "_id") (Val.str (dtype ++ "_" ++ f))),
          ("type", Val.str dtype)] k = none := by
        rw [Obj.get_cons, Obj.get_singleton, if_neg (fun hh => hk2 hh.symm),
          if_neg (fun hh => hk1 hh.symm)]
        rfl
      rw [hB, hA, Option.none_or, Option.or_none]
    · rw [hrget "createdAt" (by decide), saveDoc_get_ne_rev dtype data f n "createdAt"
        (by decide), get_block]
      have hB : Obj.get [("createdAt", jsOr (data.get "createdAt") (Val.str n)),
          ("updatedAt", Val.str n)] "createdAt" =
          some (jsOr (data.get "createdAt") (Val.str n)) := rfl
      rw [hB, Option.or_some]
      unfold jsOr
      rw [if_pos hca]
      exact truthy_getD _ hca
    · rw [hrget "updatedAt" (by decide), saveDoc_get_ne_rev dtype data f n "updatedAt"
        (by decide), get_block]
      rfl

/-- Witness for C2: saving a fresh document with a caller-supplied
`createdAt` on an empty store, then reading it back by the returned id,
yields exactly the saved document. -/
theorem save_get_roundtrip_witness :
    Storage.get ⟨[[("_id", Val.str "user_f1"), ("type", Val.str "user"),
        ("name", Val.str "A"), ("createdAt", Val.str "c0"), ("createdAt", Val.str "c0"),
        ("updatedAt", Val.str "t1"), ("_rev", Val.num 0)]], 1⟩
      (Obj.idStr [("_id", Val.str "user_f1"), ("type", Val.str "user"),
        ("name", Val.str "A"), ("createdAt", Val.str "c0"), ("createdAt", Val.str "c0"),
        ("updatedAt", Val.str "t1"), ("_rev", Val.num 0)]) =
    some [("_id", Val.str "user_f1"), ("type", Val.str "user"),
        ("name", Val.str "A"), ("createdAt", Val.str "c0"), ("createdAt", Val.str "c0"),
        ("updatedAt", Val.str "t1"), ("_rev", Val.num 0)] :=
  (save_get_roundtrip emptyDB "user" [("name", Val.str "A"), ("createdAt", Val.str "c0")]
    "f1" "t1"
    [("_id", Val.str "user_f1"), ("type", Val.str "user"), ("name", Val.str "A"),
      ("createdAt", Val.str "c0"), ("createdAt", Val.str "c0"), ("updatedAt", Val.str "t1"),
      ("_rev", Val.num 0)]
    ⟨[[("_id", Val.str "user_f1"), ("type", Val.str "user"), ("name", Val.str "A"),
      ("createdAt", Val.str "c0"), ("createdAt", Val.str "c0"), ("updatedAt", Val.str "t1"),
      ("_rev", Val.num 0)]], 1⟩
    (by decide) rfl).1

/-! ### C7: snapshot import -/

/-- C7 counterexample: a snapshot with one well-formed document and one
document merely missing `type` (but carrying an `_id`) imports **both**
documents — `db.put` does not require a `type` field — so the call returns
`imported = 2, total = 2`, not the claimed `imported = 1`. -/
theorem import_missing_type_imports_anyway :
    (match Storage.importBackup emptyDB
        (some [[("_id", Val.str "a"), ("type", Val.str "user")], [("_id", Val.str "b")]]) with
     | Except.ok (m, t, _) => (m, t)
     | Except.error _ => (0, 0)) = (2, 2) := by decide

/-- The import fold increases the success counter by at most one per
document. -/
theorem import_foldl_le (docs : List Obj) (st : Nat × DB) :
    (docs.foldl (fun (st : Nat × DB) (doc : Obj) =>
        match st.2.put doc with
        | Except.ok (_, db2) => (st.1 + 1, db2)
        | Except.error _ => st) st).1 ≤ st.1 + docs.length := by
  induction docs generalizing st with
  | nil => simp
  | cons d t ih =>
    rw [List.foldl_cons]
    cases hp : st.2.put d with
    | ok p =>
      have h1 := ih ((st.1 + 1, p.2))
      simp only [hp, List.length_cons] at *
      omega
    | error e =>
      have h1 := ih st
      simp only [hp, List.length_cons] at *
      omega

/-- C7 (amended): for a snapshot carrying a `documents` array of length N,
the importer attempts a `put` for each document, catches per-document
failures without aborting the batch (the call always returns counts, never
a per-document error), and returns `imported ≤ total = N` with `imported`
counting the successful puts.  A document missing only `type` is still
imported (see the counterexample), while a document whose put genuinely
fails — e.g. one missing `_id` — is skipped: one well-formed document plus
one document missing `_id` yields `imported = 1, total = 2`, with the
well-formed document retrievable afterward.  A parse result without a
`documents` array is rejected as an invalid backup. -/
theorem importBackup_spec :
    (∀ db docs, ∃ m db2,
      Storage.importBackup db (some docs) = Except.ok (m, docs.length, db2) ∧
        m ≤ docs.length) ∧
    Storage.importBackup emptyDB none = Except.error Err.invalidBackup ∧
    (match Storage.importBackup emptyDB
        (some [[("_id", Val.str "a"), ("type", Val.str "user")], [("name", Val.str "x")]]) with
     | Except.ok (m, t, db2) => (m, t, (Storage.get db2 "a").isSome)
     | Except.error _ => (0, 0, false)) = (1, 2, true) := by
  refine ⟨?_, rfl, by decide⟩
  intro db docs
  refine ⟨_, _, rfl, ?_⟩
  have h1 := import_foldl_le docs (0, db)
  simpa using h1

/-! ### C8: retention pruning -/

/-- Characterization of the `cleanOldData` selector. -/
theorem selMatch_cleanSel (cutoff : String) (d : Obj) :
    selMatch (Storage.cleanSel cutoff) d = true ↔
      d.get "type" = some (Val.str "daily_record") ∧
      ∃ s, d.get "recordDate" = some (Val.str s) ∧ strKey s < strKey cutoff := by
  simp only [Storage.cleanSel, selMatch, List.all_cons, List.all_nil, Bool.and_true,
    Bool.and_eq_true, condMatch_ceq_iff, condMatch_clt_iff]

/-- The deletion loop of `cleanOldData`: on a well-formed store, removing a
sublist of the stored documents deletes exactly the documents with those
ids and counts them. -/
theorem removeAll_ok (vs : List Obj) (db : DB) (acc : Nat)
    (hids : ∀ d ∈ db.docs, strId d = true)
    (hnd : (db.docs.map Obj.idStr).Nodup)
    (hsub : vs.Sublist db.docs) :
    Storage.removeAll db vs acc = Except.ok (acc + vs.length,
      ⟨db.docs.filter (fun d => !((vs.map Obj.idStr).contains d.idStr)), db.nextRev⟩) := by
  induction vs generalizing db acc with
  | nil =>
    have hfl : db.docs.filter
        (fun d => !((List.map Obj.idStr []).contains d.idStr)) = db.docs :=
      List.filter_eq_self.mpr (fun a _ => rfl)
    simp [Storage.removeAll, hfl]
  | cons v rest ih =>
    have hvmem : v ∈ db.docs := hsub.subset (List.mem_cons_self v rest)
    have hvid := Obj.idStr_of_strId v (hids v hvmem)
    have hget : db.getDoc v.idStr = some v := find?_id_of_mem db.docs v hids hnd hvmem
    have hrm : db.remove v = Except.ok
        ⟨db.docs.filter (fun d => !(d.get "_id" == some (Val.str v.idStr))), db.nextRev⟩ := by
      simp [DB.remove, hvid, hget]
    have hrsub : rest.Sublist db.docs := List.sublist_of_cons_sublist hsub
    have hvnotin : v.idStr ∉ rest.map Obj.idStr := by
      have h1 : ((v :: rest).map Obj.idStr).Sublist (db.docs.map Obj.idStr) :=
        List.Sublist.map Obj.idStr hsub
      have h2 := List.Nodup.sublist h1 hnd
      rw [List.map_cons, List.nodup_cons] at h2
      exact h2.1
    have hrestpred : ∀ r ∈ rest,
        (fun d => !(d.get "_id" == some (Val.str v.idStr))) r = true := by
      intro r hr
      have hrid := Obj.idStr_of_strId r (hids r (hrsub.subset hr))
      have hne : r.idStr ≠ v.idStr := by
        intro hcontra
        exact hvnotin (hcontra ▸ List.mem_map.mpr ⟨r, hr, rfl⟩)
      show (!(r.get "_id" == some (Val.str v.idStr))) = true
      rw [hrid]
      simp [beq_eq_false_iff_ne, hne]
    have hsub2 : rest.Sublist
        (db.docs.filter (fun d => !(d.get "_id" == some (Val.str v.idStr)))) := by
      have h1 := List.Sublist.filter
        (fun d => !(d.get "_id" == some (Val.str v.idStr))) hrsub
      rwa [List.filter_eq_self.mpr hrestpred] at h1
    have hids2 : ∀ d ∈ db.docs.filter
        (fun d => !(d.get "_id" == some (Val.str v.idStr))), strId d = true :=
      fun d hd => hids d (List.mem_filter.mp hd).1
    have hnd2 : ((db.docs.filter
        (fun d => !(d.get "_id" == some (Val.str v.idStr)))).map Obj.idStr).Nodup :=
      List.Nodup.sublist (List.Sublist.map Obj.idStr (List.filter_sublist db.docs)) hnd
    have hih := ih ⟨db.docs.filter (fun d => !(d.get "_id" == some (Val.str v.idStr))),
      db.nextRev⟩ (acc + 1) hids2 hnd2 hsub2
    simp only [Storage.removeAll, hrm]
    rw [hih]
    congr 1
    congr 1
    · rw [List.length_cons]
      omega
    · congr 1
      rw [List.filter_filter]
      apply List.filter_congr
      intro d hd
      have hdid := Obj.idStr_of_strId d (hids d hd)
      have hdv : (d.get "_id" == some (Val.str v.idStr)) = (d.idStr == v.idStr) := by
        rw [hdid]
        by_cases heq : d.idStr = v.idStr
        · rw [heq]
          rw [beq_self_eq_true, beq_self_eq_true]
        · rw [beq_eq_false_iff_ne.mpr (by simp [heq]), beq_eq_false_iff_ne.mpr heq]
      rw [List.map_cons, List.contains_cons, Bool.not_or, hdv, Bool.and_comm]

/-- C8: `cleanOldData` (the retention pruner, hard-wired to type
`daily_record`, with the cutoff date string computed from `days` passed in
explicitly) deletes exactly the `daily_record` documents whose
`recordDate` is strictly below the cutoff — every deleted document had
type `daily_record` and an in-range date, every document of another type
or with `recordDate ≥ cutoff` (or no date) survives — and returns the
count of deleted documents. -/
theorem cleanOldData_spec (db : DB) (cutoff : String) (hwf : WellFormed db) :
    ∃ n db2, Storage.cleanOldData db cutoff = Except.ok (n, db2) ∧
      n = (db.docs.filter (selMatch (Storage.cleanSel cutoff))).length ∧
      (∀ d ∈ db.docs, d ∉ db2.docs →
        d.get "type" = some (Val.str "daily_record") ∧
        ∃ s, d.get "recordDate" = some (Val.str s) ∧ strKey s < strKey cutoff) ∧
      (∀ d ∈ db.docs,
        (d.get "type" = some (Val.str "daily_record") →
          ∀ s, d.get "recordDate" = some (Val.str s) → ¬ strKey s < strKey cutoff) →
        d ∈ db2.docs) := by
  have hra := removeAll_ok (db.find (Storage.cleanSel cutoff)) db 0 hwf.1 hwf.2
    (List.filter_sublist db.docs)
  have hfl : db.docs.filter (fun d =>
      !(((db.find (Storage.cleanSel cutoff)).map Obj.idStr).contains d.idStr)) =
      db.docs.filter (fun d => !(selMatch (Storage.cleanSel cutoff) d)) := by
    apply List.filter_congr
    intro d hd
    have hcm : (((db.find (Storage.cleanSel cutoff)).map Obj.idStr).contains d.idStr) =
        selMatch (Storage.cleanSel cutoff) d := by
      cases hsel : selMatch (Storage.cleanSel cutoff) d with
      | true =>
        have hdin : d ∈ db.find (Storage.cleanSel cutoff) :=
          List.mem_filter.mpr ⟨hd, hsel⟩
        exact List.elem_iff.mpr (List.mem_map.mpr ⟨d, hdin, rfl⟩)
      | false =>
        cases hc : (((db.find (Storage.cleanSel cutoff)).map Obj.idStr).contains d.idStr) with
        | false => rfl
        | true =>
          exfalso
          obtain ⟨d2, hd2, hid2⟩ := List.mem_map.mp (List.elem_iff.mp hc)
          have hd2docs : d2 ∈ db.docs := (List.mem_filter.mp hd2).1
          have heq : d2 = d := List.inj_on_of_nodup_map hwf.2 hd2docs hd hid2
          rw [heq] at hd2
          rw [(List.mem_filter.mp hd2).2] at hsel
          exact Bool.noConfusion hsel
    rw [hcm]
  unfold Storage.cleanOldData
  rw [hra, hfl]
  refine ⟨_, _, rfl, by rw [Nat.zero_add]; rfl, ?_, ?_⟩
  · intro d hd hnot
    have hsel2 : selMatch (Storage.cleanSel cutoff) d = true := by
      cases hsel : selMatch (Storage.cleanSel cutoff) d with
      | true => rfl
      | false =>
        exfalso
        exact hnot (List.mem_filter.mpr ⟨hd, by rw [hsel]; rfl⟩)
    exact (selMatch_cleanSel cutoff d).mp hsel2
  · intro d hd hcond
    apply List.mem_filter.mpr
    refine ⟨hd, ?_⟩
    cases hsel : selMatch (Storage.cleanSel cutoff) d with
    | false => rfl
    | true =>
      exfalso
      obtain ⟨hty, s, hdate, hlt⟩ := (selMatch_cleanSel cutoff d).mp hsel
      exact hcond hty s hdate hlt

/-- Witness for C8 at a concrete store: one old daily record is deleted,
the recent daily record and the attendance document survive. -/
theorem cleanOldData_spec_witness :
    ∃ n db2, Storage.cleanOldData
        ⟨[[("_id", Val.str "daily_record_1"), ("type", Val.str "daily_record"),
           ("recordDate", Val.str "2024-01-01"), ("_rev", Val.num 0)],
          [("_id", Val.str "daily_record_2"), ("type", Val.str "daily_record"),
           ("recordDate", Val.str "2024-06-01"), ("_rev", Val.num 1)],
          [("_id", Val.str "att_1"), ("type", Val.str "attendance"),
           ("recordDate", Val.str "2023-01-01"), ("_rev", Val.num 2)]], 3⟩
        "2024-05-01" = Except.ok (n, db2) ∧
      n = ((⟨[[("_id", Val.str "daily_record_1"), ("type", Val.str "daily_record"),
           ("recordDate", Val.str "2024-01-01"), ("_rev", Val.num 0)],
          [("_id", Val.str "daily_record_2"), ("type", Val.str "daily_record"),
           ("recordDate", Val.str "2024-06-01"), ("_rev", Val.num 1)],
          [("_id", Val.str "att_1"), ("type", Val.str "attendance"),
           ("recordDate", Val.str "2023-01-01"), ("_rev", Val.num 2)]], 3⟩ : DB).docs.filter
          (selMatch (Storage.cleanSel "2024-05-01"))).length ∧
      (∀ d ∈ (⟨[[("_id", Val.str "daily_record_1"), ("type", Val.str "daily_record"),
           ("recordDate", Val.str "2024-01-01"), ("_rev", Val.num 0)],
          [("_id", Val.str "daily_record_2"), ("type", Val.str "daily_record"),
           ("recordDate", Val.str "2024-06-01"), ("_rev", Val.num 1)],
          [("_id", Val.str "att_1"), ("type", Val.str "attendance"),
           ("recordDate", Val.str "2023-01-01"), ("_rev", Val.num 2)]], 3⟩ : DB).docs,
        d ∉ db2.docs →
        d.get "type" = some (Val.str "daily_record") ∧
        ∃ s, d.get "recordDate" = some (Val.str s) ∧ strKey s < strKey "2024-05-01") ∧
      (∀ d ∈ (⟨[[("_id", Val.str "daily_record_1"), ("type", Val.str "daily_record"),
           ("recordDate", Val.str "2024-01-01"), ("_rev", Val.num 0)],
          [("_id", Val.str "daily_record_2"), ("type", Val.str "daily_record"),
           ("recordDate", Val.str "2024-06-01"), ("_rev", Val.num 1)],
          [("_id", Val.str "att_1"), ("type", Val.str "attendance"),
           ("recordDate", Val.str "2023-01-01"), ("_rev", Val.num 2)]], 3⟩ : DB).docs,
        (d.get "type" = some (Val.str "daily_record") →
          ∀ s, d.get "recordDate" = some (Val.str s) → ¬ strKey s < strKey "2024-05-01") →
        d ∈ db2.docs) :=
  cleanOldData_spec
    ⟨[[("_id", Val.str "daily_record_1"), ("type", Val.str "daily_record"),
       ("recordDate", Val.str "2024-01-01"), ("_rev", Val.num 0)],
      [("_id", Val.str "daily_record_2"), ("type", Val.str "daily_record"),
       ("recordDate", Val.str "2024-06-01"), ("_rev", Val.num 1)],
      [("_id", Val.str "att_1"), ("type", Val.str "attendance"),
       ("recordDate", Val.str "2023-01-01"), ("_rev", Val.num 2)]], 3⟩
    "2024-05-01" (by decide)

/-! ### C10: createOrganization idempotence -/

/-- The number of organization documents carrying a given
`organizationId`. -/
def countOrg (db : DB) (s : String) : Nat :=
  (db.docs.filter (fun d => d.get "type" == some (Val.str "organization") &&
    (d.get "organizationId" == some (Val.str s)))).length

theorem Obj.get_removeKey_self (o : Obj) (k : String) :
    (o.removeKey k).get k = none := by
  induction o with
  | nil => rfl
  | cons p t ih =>
    unfold Obj.removeKey at ih ⊢
    rw [List.filter_cons]
    by_cases hp : p.1 = k
    · rw [if_neg (by simp [hp])]
      exact ih
    · rw [if_pos (by simp [hp]), Obj.get_cons, ih, if_neg hp]
      rfl

/-- C10 counterexample: for the falsy `organizationId` value `""`,
`createOrganization` does not detect the existing organization —
`getOrganization` returns `null` for any falsy argument — and writes a
second organization document with the same `organizationId`, refuting the
claimed at-most-one invariant as stated for every `organizationId`. -/
theorem createOrganization_empty_orgId_duplicates :
    (match Storage.createOrganization
        ⟨[[("_id", Val.str "organization_a"), ("type", Val.str "organization"),
           ("organizationId", Val.str ""), ("_rev", Val.num 0)]], 1⟩
        [("organizationId", Val.str "")] "b" "t" with
     | Except.ok (_, db2) => (db2.docs.filter (fun d =>
         d.get "type" == some (Val.str "organization") &&
         (d.get "organizationId" == some (Val.str "")))).length
     | Except.error _ => 0) = 2 := by decide

/-- C10 (amended): for a truthy (non-empty string) `organizationId`,
`createOrganization` is idempotent: the first call on a store with no such
organization creates exactly one organization document for that
`organizationId`, and a repeated call returns that stored document
unchanged and performs no write (the database is returned untouched).
The generated-id hypotheses say that the fresh id is unused and falls in
the `allDocs` key range `organization_ .. organization_￰`, which holds
for the timestamp-random ids the code generates. -/
theorem createOrganization_idem (db : DB) (data : Obj) (f n f2 n2 s : String)
    (hdo : data.get "organizationId" = some (Val.str s))
    (hs : s ≠ "")
    (hcount : countOrg db s = 0)
    (hfresh : db.getDoc ("organization_" ++ f) = none)
    (hrange : inKeyRange ("organization_" ++ f) "organization_" "organization_￰" = true) :
    ∃ r db1, Storage.createOrganization db data f n = Except.ok (r, db1) ∧
      db1.docs = db.docs ++ [r] ∧
      countOrg db1 s = 1 ∧
      Storage.createOrganization db1 data f2 n2 = Except.ok (r, db1) := by
  have htr : truthy (some (Val.str s)) = true := by
    unfold truthy
    simp [hs]
  have hnoneOld : ((db.docs.filter
      (fun d => inKeyRange d.idStr "organization_" "organization_￰")).filter
        (fun d => d.get "type" == some (Val.str "organization"))).find?
      (fun d => d.get "organizationId" == some (Val.str s)) = none := by
    apply List.find?_eq_none.mpr
    intro d hd
    unfold countOrg at hcount
    rw [List.length_eq_zero] at hcount
    have hd1 := List.mem_filter.mp hd
    have hd2 := List.mem_filter.mp hd1.1
    intro hp
    have hmem : d ∈ db.docs.filter (fun d =>
        d.get "type" == some (Val.str "organization") &&
          (d.get "organizationId" == some (Val.str s))) :=
      List.mem_filter.mpr ⟨hd2.1, by rw [Bool.and_eq_true]; exact ⟨hd1.2, hp⟩⟩
    rw [hcount] at hmem
    exact absurd hmem (List.not_mem_nil d)
  have hgo1 : Storage.getOrganization db (data.get "organizationId") = none := by
    rw [hdo]
    unfold Storage.getOrganization
    rw [if_pos htr]
    exact hnoneOld
  have hp_id : (Storage.orgPayload data).get "_id" = none := rfl
  have hp_rev : (Storage.orgPayload data).get "_rev" = none := rfl
  have hp_type : (Storage.orgPayload data).get "type" = none := rfl
  have hp_org : (Storage.orgPayload data).get "organizationId" = some (Val.str s) := by
    show some ((data.get "organizationId").getD Val.null) = some (Val.str s)
    rw [hdo]
    rfl
  have hfalsy : truthy ((Storage.orgPayload data).get "_rev") = false := by
    rw [hp_rev]
    rfl
  have hsd := Storage.saveDoc_of_rev_falsy "organization" (Storage.orgPayload data) f n hfalsy
  have hjs : jsOr ((Storage.orgPayload data).get "_id")
      (Val.str ("organization" ++ "_" ++ f)) = Val.str ("organization_" ++ f) := by
    rw [hp_id]
    rfl
  have hBnone : ∀ k, k ≠ "createdAt" → k ≠ "updatedAt" →
      Obj.get [("createdAt", jsOr ((Storage.orgPayload data).get "createdAt") (Val.str n)),
        ("updatedAt", Val.str n)] k = none := by
    intro k hk1 hk2
    rw [Obj.get_cons, Obj.get_singleton, if_neg (fun hh => hk2 hh.symm),
      if_neg (fun hh => hk1 hh.symm)]
    rfl
  have hsdget : ∀ k, k ≠ "_rev" → k ≠ "createdAt" → k ≠ "updatedAt" →
      (Storage.saveDoc "organization" (Storage.orgPayload data) f n).get k =
        ((Storage.orgPayload data).get k).or
          (Obj.get [("_id", jsOr ((Storage.orgPayload data).get "_id")
              (Val.str ("organization" ++ "_" ++ f))),
            ("type", Val.str "organization")] k) := by
    intro k hk1 hk2 hk3
    rw [hsd, Obj.get_removeKey_ne _ _ _ hk1, get_block, hBnone k hk2 hk3, Option.none_or]
  have hdocid : (Storage.saveDoc "organization" (Storage.orgPayload data) f n).get "_id" =
      some (Val.str ("organization_" ++ f)) := by
    rw [hsdget "_id" (by decide) (by decide) (by decide), hp_id, Option.none_or]
    show some (jsOr ((Storage.orgPayload data).get "_id")
      (Val.str ("organization" ++ "_" ++ f))) = _
    rw [hjs]
  have hdocrev : (Storage.saveDoc "organization" (Storage.orgPayload data) f n).get "_rev" =
      none := by
    rw [hsd, Obj.get_removeKey_self]
  have hput := DB.put_fresh db (Storage.saveDoc "organization" (Storage.orgPayload data) f n)
    ("organization_" ++ f) hdocid hfresh hdocrev
  have hsave : Storage.save db "organization" (Storage.orgPayload data) f n =
      Except.ok (Storage.saveDoc "organization" (Storage.orgPayload data) f n ++
          [("_rev", Val.num db.nextRev)],
        ⟨db.docs ++ [Storage.saveDoc "organization" (Storage.orgPayload data) f n ++
          [("_rev", Val.num db.nextRev)]], db.nextRev + 1⟩) := by
    unfold Storage.save
    rw [hput]
  have hr_type : (Storage.saveDoc "organization" (Storage.orgPayload data) f n ++
      [("_rev", Val.num db.nextRev)]).get "type" = some (Val.str "organization") := by
    rw [Obj.get_append, Obj.get_singleton, if_neg (by decide), Option.none_or,
      hsdget "type" (by decide) (by decide) (by decide), hp_type, Option.none_or]
    rfl
  have hr_org : (Storage.saveDoc "organization" (Storage.orgPayload data) f n ++
      [("_rev", Val.num db.nextRev)]).get "organizationId" = some (Val.str s) := by
    rw [Obj.get_append, Obj.get_singleton, if_neg (by decide), Option.none_or,
      hsdget "organizationId" (by decide) (by decide) (by decide), hp_org, Option.or_some]
  have hr_id : (Storage.saveDoc "organization" (Storage.orgPayload data) f n ++
      [("_rev", Val.num db.nextRev)]).get "_id" = some (Val.str ("organization_" ++ f)) := by
    rw [Obj.get_append, Obj.get_singleton, if_neg (by decide), Option.none_or, hdocid]
  have hr_idStr : (Storage.saveDoc "organization" (Storage.orgPayload data) f n ++
      [("_rev", Val.num db.nextRev)]).idStr = "organization_" ++ f :=
    Obj.idStr_of_get _ _ hr_id
  have hpredr : ((Storage.saveDoc "organization" (Storage.orgPayload data) f n ++
      [("_rev", Val.num db.nextRev)]).get "type" == some (Val.str "organization") &&
      ((Storage.saveDoc "organization" (Storage.orgPayload data) f n ++
        [("_rev", Val.num db.nextRev)]).get "organizationId" ==
          some (Val.str s))) = true := by
    rw [hr_type, hr_org, beq_self_eq_true, beq_self_eq_true]
    rfl
  have hcount1 : countOrg ⟨db.docs ++ [Storage.saveDoc "organization"
      (Storage.orgPayload data) f n ++ [("_rev", Val.num db.nextRev)]], db.nextRev + 1⟩ s = 1 := by
    unfold countOrg
    rw [List.filter_append]
    unfold countOrg at hcount
    rw [List.length_eq_zero] at hcount
    rw [hcount, List.nil_append, List.filter_cons, if_pos hpredr]
    rfl
  have hrowsr : inKeyRange (Storage.saveDoc "organization" (Storage.orgPayload data) f n ++
      [("_rev", Val.num db.nextRev)]).idStr "organization_" "organization_￰" = true := by
    rw [hr_idStr]
    exact hrange
  have htyperp : (fun (d : Obj) => d.get "type" == some (Val.str "organization"))
      (Storage.saveDoc "organization" (Storage.orgPayload data) f n ++
        [("_rev", Val.num db.nextRev)]) = true := by
    show ((Storage.saveDoc "organization" (Storage.orgPayload data) f n ++
      [("_rev", Val.num db.nextRev)]).get "type" == some (Val.str "organization")) = true
    rw [hr_type]
    exact beq_self_eq_true _
  have horgp : (fun (d : Obj) => d.get "organizationId" == some (Val.str s))
      (Storage.saveDoc "organization" (Storage.orgPayload data) f n ++
        [("_rev", Val.num db.nextRev)]) = true := by
    show ((Storage.saveDoc "organization" (Storage.orgPayload data) f n ++
      [("_rev", Val.num db.nextRev)]).get "organizationId" == some (Val.str s)) = true
    rw [hr_org]
    exact beq_self_eq_true _
  have hgo2 : Storage.getOrganization ⟨db.docs ++ [Storage.saveDoc "organization"
      (Storage.orgPayload data) f n ++ [("_rev", Val.num db.nextRev)]], db.nextRev + 1⟩
      (data.get "organizationId") = some (Storage.saveDoc "organization"
        (Storage.orgPayload data) f n ++ [("_rev", Val.num db.nextRev)]) := by
    rw [hdo]
    unfold Storage.getOrganization
    rw [if_pos htr]
    show (((db.docs ++ [Storage.saveDoc "organization" (Storage.orgPayload data) f n ++
          [("_rev", Val.num db.nextRev)]]).filter
        (fun d => inKeyRange d.idStr "organization_" "organization_￰")).filter
          (fun d => d.get "type" == some (Val.str "organization"))).find?
        (fun d => d.get "organizationId" == some (Val.str s)) =
      some (Storage.saveDoc "organization" (Storage.orgPayload data) f n ++
        [("_rev", Val.num db.nextRev)])
    rw [List.filter_append, List.filter_cons, if_pos hrowsr, List.filter_nil,
      List.filter_append, List.filter_cons, if_pos htyperp, List.filter_nil,
      List.find?_append, hnoneOld, Option.none_or]
    exact @List.find?_cons_of_pos Obj
      (fun (d : Obj) => d.get "organizationId" == some (Val.str s)) _ _ horgp
  refine ⟨Storage.saveDoc "organization" (Storage.orgPayload data) f n ++
      [("_rev", Val.num db.nextRev)],
    ⟨db.docs ++ [Storage.saveDoc "organization" (Storage.orgPayload data) f n ++
      [("_rev", Val.num db.nextRev)]], db.nextRev + 1⟩, ?_, rfl, hcount1, ?_⟩
  · unfold Storage.createOrganization
    rw [hgo1]
    exact hsave
  · unfold Storage.createOrganization
    rw [hgo2]

/-- Witness for C10 at a concrete store: creating `ORG1` twice ends with a
single organization document, the second call returning it without a
write. -/
theorem createOrganization_idem_witness :
    ∃ r db1, Storage.createOrganization emptyDB
        [("organizationId", Val.str "ORG1"), ("name", Val.str "Facility A")] "x1" "t1" =
      Except.ok (r, db1) ∧
      db1.docs = emptyDB.docs ++ [r] ∧
      countOrg db1 "ORG1" = 1 ∧
      Storage.createOrganization db1
        [("organizationId", Val.str "ORG1"), ("name", Val.str "Facility A")] "x2" "t2" =
      Except.ok (r, db1) :=
  createOrganization_idem emptyDB
    [("organizationId", Val.str "ORG1"), ("name", Val.str "Facility A")]
    "x1" "t1" "x2" "t2" "ORG1" rfl (by decide) (by decide) rfl (by decide)

/-! ### C9: user/date-range query and fallback-scan equivalence -/

/-- Characterization of the `getDailyRecords` selector. -/
theorem selMatch_dailySel (u : Val) (s e : String) (d : Obj) :
    selMatch (Storage.dailySel u s e) d = true ↔
      d.get "type" = some (Val.str "daily_record") ∧ d.get "userId" = some u ∧
      ∃ rd, d.get "recordDate" = some (Val.str rd) ∧
        strKey s ≤ strKey rd ∧ strKey rd ≤ strKey e := by
  simp only [Storage.dailySel, selMatch, List.all_cons, List.all_nil, Bool.and_true,
    Bool.and_eq_true, condMatch_ceq_iff, condMatch_crange_iff]

/-- C9: `getDailyRecords(userId, startDate, endDate)` returns exactly the
`daily_record` documents of that user whose `recordDate` lies in the
inclusive range `[startDate, endDate]`, sorted descending by
`recordDate`; and the v2.4.0 fallback scan (plain find plus the manual
`Date`-comparator sort) returns the same result set — a permutation of the
index-assisted result — also sorted descending, so breaking the index
layer does not change the result set of the query. -/
theorem getDailyRecords_spec (db : DB) (u : Val) (s e : String) :
    (∀ d, d ∈ Storage.getDailyRecords db u s e ↔
      (d ∈ db.docs ∧ d.get "type" = some (Val.str "daily_record") ∧
        d.get "userId" = some u ∧
        ∃ rd, d.get "recordDate" = some (Val.str rd) ∧
          strKey s ≤ strKey rd ∧ strKey rd ≤ strKey e)) ∧
    List.Sorted Storage.dateDesc (Storage.getDailyRecords db u s e) ∧
    (Storage.getDailyRecordsFallback db u s e).Perm (Storage.getDailyRecords db u s e) ∧
    List.Sorted Storage.dateDesc (Storage.getDailyRecordsFallback db u s e) := by
  refine ⟨?_, ?_, ?_, ?_⟩
  · intro d
    unfold Storage.getDailyRecords
    rw [List.Perm.mem_iff (List.perm_insertionSort Storage.dateDesc _)]
    unfold DB.find
    rw [List.mem_filter]
    constructor
    · rintro ⟨h1, h2⟩
      exact ⟨h1, (selMatch_dailySel u s e d).mp h2⟩
    · rintro ⟨h1, h2⟩
      exact ⟨h1, (selMatch_dailySel u s e d).mpr h2⟩
  · exact List.sorted_insertionSort Storage.dateDesc _
  · unfold Storage.getDailyRecords Storage.getDailyRecordsFallback
    exact (List.mergeSort_perm _ _).trans (List.perm_insertionSort Storage.dateDesc _).symm
  · have htrans : ∀ (a b c : Obj), decide (Storage.dateDesc a b) = true →
        decide (Storage.dateDesc b c) = true → decide (Storage.dateDesc a c) = true := by
      intro a b c h1 h2
      rw [decide_eq_true_iff] at h1 h2 ⊢
      exact le_trans h2 h1
    have htot : ∀ (a b : Obj),
        (decide (Storage.dateDesc a b) || decide (Storage.dateDesc b a)) = true := by
      intro a b
      rw [Bool.or_eq_true]
      rcases le_total (strKey (Storage.recDate b)) (strKey (Storage.recDate a)) with h | h
      · exact Or.inl (decide_eq_true h)
      · exact Or.inr (decide_eq_true h)
    have h1 := List.sorted_mergeSort htrans htot (db.find (Storage.dailySel u s e))
    exact h1.imp (fun h => of_decide_eq_true h)

/-! ### C1: one record per (kind, userId, date) under the upsert pattern -/

/-- Whether a stored document is a `kind` record of user `u` on date `dt`
(the membership test of the upsert probe selector). -/
def matchesRec (kind dateField : String) (u dt : Val) (d : Obj) : Bool :=
  d.get "type" == some (Val.str kind) &&
    (d.get "userId" == some u && (d.get dateField == some dt))

/-- The number of stored `kind` documents for the pair `(u, dt)`. -/
def countRec (kind dateField : String) (u dt : Val) (db : DB) : Nat :=
  (db.docs.filter (matchesRec kind dateField u dt)).length

/-- Hygiene of an upsert payload, as at every call site: it targets
`(u, dt)` and carries none of the envelope keys. -/
def CleanData (dateField : String) (u dt : Val) (data : Obj) : Prop :=
  data.get "userId" = some u ∧ data.get dateField = some dt ∧
  data.get "_id" = none ∧ data.get "_rev" = none ∧ data.get "type" = none

instance (dateField : String) (u dt : Val) (data : Obj) :
    Decidable (CleanData dateField u dt data) :=
  inferInstanceAs (Decidable (And _ _))

/-- Invariant of every reachable store: each stored document carries a
revision. -/
def AllRev (db : DB) : Prop := ∀ d ∈ db.docs, (d.get "_rev").isSome = true

instance (db : DB) : Decidable (AllRev db) :=
  inferInstanceAs (Decidable (∀ d ∈ db.docs, (d.get "_rev").isSome = true))

/-- A sequence of `saveDailyRecord` calls; each entry carries the current
user, the payload and the freshness parameters of that call. -/
def runDailySeq : DB → List (Option Obj × Obj × String × String) → Except Err DB
  | db, [] => Except.ok db
  | db, c :: rest =>
    match Storage.saveDailyRecord db c.1 c.2.1 c.2.2.1 c.2.2.2 with
    | Except.ok (_, db2) => runDailySeq db2 rest
    | Except.error e => Except.error e

/-- A sequence of `saveAttendance` calls. -/
def runAttendanceSeq : DB → List (Option Obj × Obj × String × String) → Except Err DB
  | db, [] => Except.ok db
  | db, c :: rest =>
    match Storage.saveAttendance db c.1 c.2.1 c.2.2.1 c.2.2.2 with
    | Except.ok (_, db2) => runAttendanceSeq db2 rest
    | Except.error e => Except.error e

/-- A sequence of `upsertRecord` calls with the organization id already
resolved per call. -/
def runUpsertSeq (kind dateField : String) :
    DB → List (Val × Obj × String × String) → Except Err DB
  | db, [] => Except.ok db
  | db, c :: rest =>
    match Storage.upsertRecord kind dateField c.1 db c.2.1 c.2.2.1 c.2.2.2 with
    | Except.ok (_, db2) => runUpsertSeq kind dateField db2 rest
    | Except.error e => Except.error e

theorem condMatch_ceq_beq (v : Val) (o : Option Val) :
    condMatch (Cond.ceq v) o = (o == some v) := by
  cases o with
  | none => rfl
  | some w =>
    show (v == w) = (w == v)
    by_cases h : v = w
    · rw [h]
    · rw [beq_eq_false_iff_ne.mpr h, beq_eq_false_iff_ne.mpr (fun hh => h hh.symm)]

theorem DB.getDoc_none_of_fresh (db : DB) (g : String)
    (hids : ∀ d ∈ db.docs, strId d = true)
    (h : g ∉ db.docs.map Obj.idStr) : db.getDoc g = none := by
  apply List.find?_eq_none.mpr
  intro d hd
  rw [Obj.idStr_of_strId d (hids d hd)]
  intro hb
  have hbe := beq_iff_eq.mp hb
  injection hbe with hbe2
  injection hbe2 with hbe3
  exact h (hbe3 ▸ List.mem_map.mpr ⟨d, hd, rfl⟩)

/-- Field lookup of a saved document built from a `_rev`-free payload, at
keys away from the stamped `createdAt` / `updatedAt` / `_rev`. -/
theorem saveDoc_get_clean (dtype : String) (data : Obj) (f n k : String)
    (hrevf : truthy (data.get "_rev") = false)
    (hk1 : k ≠ "_rev") (hk2 : k ≠ "createdAt") (hk3 : k ≠ "updatedAt") :
    (Storage.saveDoc dtype data f n).get k =
      (data.get k).or (Obj.get [("_id", jsOr (data.get "_id")
        (Val.str (dtype ++ "_" ++ f))), ("type", Val.str dtype)] k) := by
  rw [Storage.saveDoc_of_rev_falsy dtype data f n hrevf, Obj.get_removeKey_ne _ _ _ hk1,
    get_block]
  rw [show Obj.get [("createdAt", jsOr (data.get "createdAt") (Val.str n)),
      ("updatedAt", Val.str n)] k = none from by
    rw [Obj.get_cons, Obj.get_singleton, if_neg (fun hh => hk3 hh.symm),
      if_neg (fun hh => hk2 hh.symm)]
    rfl, Option.none_or]

/-- One upsert step: on a well-formed store with at most one `(u, dt)`
record, `upsertRecord` succeeds and leaves exactly one `(u, dt)` record,
whose payload fields are the ones just supplied; well-formedness is
preserved and at most the one generated id is added. -/
theorem upsertRecord_step (kind dateField : String) (orgId u dt : Val) (db : DB)
    (data : Obj) (f n : String)
    (hwf : WellFormed db)
    (hrevs : AllRev db)
    (hclean : CleanData dateField u dt data)
    (hdf1 : dateField ≠ "organizationId") (hdf2 : dateField ≠ "updatedAt")
    (hdf3 : dateField ≠ "createdAt") (hdf4 : dateField ≠ "_rev")
    (hcnt : countRec kind dateField u dt db ≤ 1)
    (hfresh : db.getDoc (kind ++ "_" ++ f) = none) :
    ∃ r db2, Storage.upsertRecord kind dateField orgId db data f n = Except.ok (r, db2) ∧
      countRec kind dateField u dt db2 = 1 ∧
      WellFormed db2 ∧ AllRev db2 ∧
      (∀ i ∈ db2.docs.map Obj.idStr, i ∈ db.docs.map Obj.idStr ∨ i = kind ++ "_" ++ f) ∧
      (∀ d ∈ db2.docs, matchesRec kind dateField u dt d = true →
        ∀ k, (data.get k).isSome = true → k ≠ "organizationId" → k ≠ "updatedAt" →
          k ≠ "createdAt" → k ≠ "_rev" → d.get k = data.get k) := by
  obtain ⟨hu, hd, hid0, hrev0, hty0⟩ := hclean
  have hsel : ∀ d, selMatch (Storage.upsertSel kind dateField data) d =
      matchesRec kind dateField u dt d := by
    intro d
    unfold Storage.upsertSel selMatch matchesRec
    rw [hu, hd]
    simp only [List.all_cons, List.all_nil, Option.getD_some, Bool.and_true,
      condMatch_ceq_beq]
  have hfindeq : DB.findLimit db (Storage.upsertSel kind dateField data) 1 =
      (db.docs.filter (matchesRec kind dateField u dt)).take 1 := by
    unfold DB.findLimit DB.find
    rw [List.filter_congr (fun d _ => hsel d)]
  -- shared facts about the merged payload data ++ [("organizationId", orgId)]
  have hp2 : ∀ k, k ≠ "organizationId" →
      Obj.get (data ++ [("organizationId", orgId)]) k = data.get k := by
    intro k hk
    rw [Obj.get_append, Obj.get_singleton, if_neg (fun hh => hk hh.symm), Option.none_or]
  have hp_id2 : Obj.get (data ++ [("organizationId", orgId)]) "_id" = none := by
    rw [hp2 "_id" (by decide), hid0]
  have hp_rev2 : Obj.get (data ++ [("organizationId", orgId)]) "_rev" = none := by
    rw [hp2 "_rev" (by decide), hrev0]
  have hp_ty2 : Obj.get (data ++ [("organizationId", orgId)]) "type" = none := by
    rw [hp2 "type" (by decide), hty0]
  have hp_u2 : Obj.get (data ++ [("organizationId", orgId)]) "userId" = some u := by
    rw [hp2 "userId" (by decide), hu]
  have hp_dt2 : Obj.get (data ++ [("organizationId", orgId)]) dateField = some dt := by
    rw [hp2 dateField hdf1, hd]
  cases hfl : db.docs.filter (matchesRec kind dateField u dt) with
  | nil =>
    -- insert branch
    have hfalsy : truthy (Obj.get (data ++ [("organizationId", orgId)]) "_rev") = false := by
      rw [hp_rev2]
      rfl
    have hsdg := fun (k : String) h1 h2 h3 =>
      saveDoc_get_clean kind (data ++ [("organizationId", orgId)]) f n k hfalsy h1 h2 h3
    have hdid : (Storage.saveDoc kind (data ++ [("organizationId", orgId)]) f n).get "_id" =
        some (Val.str (kind ++ "_" ++ f)) := by
      rw [hsdg "_id" (by decide) (by decide) (by decide), hp_id2, Option.none_or]
      show some (jsOr none (Val.str (kind ++ "_" ++ f))) = _
      rfl
    have hdrev : (Storage.saveDoc kind (data ++ [("organizationId", orgId)]) f n).get "_rev" =
        none := by
      rw [Storage.saveDoc_of_rev_falsy kind (data ++ [("organizationId", orgId)]) f n hfalsy,
        Obj.get_removeKey_self]
    have hput := DB.put_fresh db (Storage.saveDoc kind (data ++ [("organizationId", orgId)]) f n)
      (kind ++ "_" ++ f) hdid hfresh hdrev
    have hsave : Storage.save db kind (data ++ [("organizationId", orgId)]) f n =
        Except.ok (Storage.saveDoc kind (data ++ [("organizationId", orgId)]) f n ++
            [("_rev", Val.num db.nextRev)],
          ⟨db.docs ++ [Storage.saveDoc kind (data ++ [("organizationId", orgId)]) f n ++
            [("_rev", Val.num db.nextRev)]], db.nextRev + 1⟩) := by
      unfold Storage.save
      rw [hput]
    have hrg : ∀ k, k ≠ "_rev" → k ≠ "createdAt" → k ≠ "updatedAt" →
        (Storage.saveDoc kind (data ++ [("organizationId", orgId)]) f n ++
          [("_rev", Val.num db.nextRev)]).get k =
        (Obj.get (data ++ [("organizationId", orgId)]) k).or
          (Obj.get [("_id", jsOr (Obj.get (data ++ [("organizationId", orgId)]) "_id")
            (Val.str (kind ++ "_" ++ f))), ("type", Val.str kind)] k) := by
      intro k h1 h2 h3
      rw [Obj.get_append, Obj.get_singleton, if_neg (fun hh => h1 hh.symm), Option.none_or,
        hsdg k h1 h2 h3]
    have hr_id : (Storage.saveDoc kind (data ++ [("organizationId", orgId)]) f n ++
        [("_rev", Val.num db.nextRev)]).get "_id" = some (Val.str (kind ++ "_" ++ f)) := by
      rw [Obj.get_append, Obj.get_singleton, if_neg (by decide), Option.none_or, hdid]
    have hr_ty : (Storage.saveDoc kind (data ++ [("organizationId", orgId)]) f n ++
        [("_rev", Val.num db.nextRev)]).get "type" = some (Val.str kind) := by
      rw [hrg "type" (by decide) (by decide) (by decide), hp_ty2, Option.none_or]
      rfl
    have hr_u : (Storage.saveDoc kind (data ++ [("organizationId", orgId)]) f n ++
        [("_rev", Val.num db.nextRev)]).get "userId" = some u := by
      rw [hrg "userId" (by decide) (by decide) (by decide), hp_u2, Option.or_some]
    have hr_dt : (Storage.saveDoc kind (data ++ [("organizationId", orgId)]) f n ++
        [("_rev", Val.num db.nextRev)]).get dateField = some dt := by
      rw [hrg dateField hdf4 hdf3 hdf2, hp_dt2, Option.or_some]
    have hmr : matchesRec kind dateField u dt
        (Storage.saveDoc kind (data ++ [("organizationId", orgId)]) f n ++
          [("_rev", Val.num db.nextRev)]) = true := by
      unfold matchesRec
      rw [hr_ty, hr_u, hr_dt, beq_self_eq_true, beq_self_eq_true, beq_self_eq_true]
      rfl
    have hr_idStr : (Storage.saveDoc kind (data ++ [("organizationId", orgId)]) f n ++
        [("_rev", Val.num db.nextRev)]).idStr = kind ++ "_" ++ f :=
      Obj.idStr_of_get _ _ hr_id
    have hgennotin : (kind ++ "_" ++ f) ∉ db.docs.map Obj.idStr := by
      intro hmem
      obtain ⟨d, hdm, hdi⟩ := List.mem_map.mp hmem
      exact (DB.getDoc_eq_none db (kind ++ "_" ++ f) hfresh) d hdm
        (by rw [← hdi]; exact Obj.idStr_of_strId d (hwf.1 d hdm))
    refine ⟨Storage.saveDoc kind (data ++ [("organizationId", orgId)]) f n ++
        [("_rev", Val.num db.nextRev)],
      ⟨db.docs ++ [Storage.saveDoc kind (data ++ [("organizationId", orgId)]) f n ++
        [("_rev", Val.num db.nextRev)]], db.nextRev + 1⟩, ?_, ?_, ?_, ?_, ?_, ?_⟩
    · unfold Storage.upsertRecord
      rw [hfindeq, hfl]
      exact hsave
    · unfold countRec
      show (List.filter _ (db.docs ++ [_])).length = 1
      rw [List.filter_append, hfl, List.nil_append, List.filter_cons, if_pos hmr,
        List.filter_nil]
      rfl
    · constructor
      · intro d hdm
        rcases List.mem_append.mp hdm with hold | hnew
        · exact hwf.1 d hold
        · rw [List.mem_singleton.mp hnew]
          unfold strId
          rw [hr_id]
      · show (List.map Obj.idStr (db.docs ++ [_])).Nodup
        rw [List.map_append, List.map_cons, List.map_nil]
        rw [List.nodup_append]
        refine ⟨hwf.2, ?_, ?_⟩
        · rw [hr_idStr]
          exact List.nodup_cons.mpr ⟨List.not_mem_nil _, List.nodup_nil⟩
        · intro i hi
          rw [hr_idStr]
          intro hmem
          rcases List.mem_cons.mp hmem with heq | hn
          · exact hgennotin (heq ▸ hi)
          · exact absurd hn (List.not_mem_nil i)
    · intro d hdm
      rcases List.mem_append.mp hdm with hold | hnew
      · exact hrevs d hold
      · rw [List.mem_singleton.mp hnew, Obj.get_append, Obj.get_singleton, if_pos rfl,
          Option.or_some]
        rfl
    · intro i hi
      have hi2 : i ∈ List.map Obj.idStr (db.docs ++
          [Storage.saveDoc kind (data ++ [("organizationId", orgId)]) f n ++
            [("_rev", Val.num db.nextRev)]]) := hi
      rw [List.map_append, List.map_cons, List.map_nil] at hi2
      rcases List.mem_append.mp hi2 with hold | hnew
      · exact Or.inl hold
      · rcases List.mem_cons.mp hnew with heq | hn
        · exact Or.inr (heq.trans hr_idStr)
        · exact absurd hn (List.not_mem_nil i)
    · intro d hdm hmatch k hk hk1 hk2 hk3 hk4
      rcases List.mem_append.mp hdm with hold | hnew
      · exfalso
        have : d ∈ db.docs.filter (matchesRec kind dateField u dt) :=
          List.mem_filter.mpr ⟨hold, hmatch⟩
        rw [hfl] at this
        exact absurd this (List.not_mem_nil d)
      · rw [List.mem_singleton.mp hnew]
        rw [hrg k hk4 hk3 hk2, hp2 k hk1]
        cases hdk : data.get k with
        | none => rw [hdk] at hk; exact absurd hk (by simp)
        | some v => rw [Option.or_some]
  | cons d0 rest2 =>
    -- update branch
    have hrest2 : rest2 = [] := by
      unfold countRec at hcnt
      rw [hfl, List.length_cons] at hcnt
      have := Nat.le_of_succ_le_succ hcnt
      exact List.length_eq_zero.mp (Nat.le_zero.mp this)
    subst hrest2
    have hd0f : d0 ∈ db.docs.filter (matchesRec kind dateField u dt) := by
      rw [hfl]
      exact List.mem_cons_self d0 []
    have hd0docs : d0 ∈ db.docs := (List.mem_filter.mp hd0f).1
    have hd0m : matchesRec kind dateField u dt d0 = true := (List.mem_filter.mp hd0f).2
    have hd0ty : d0.get "type" = some (Val.str kind) := by
      unfold matchesRec at hd0m
      rw [Bool.and_eq_true, Bool.and_eq_true] at hd0m
      exact beq_iff_eq.mp hd0m.1
    have hget0 : Storage.get db d0.idStr = some d0 := DB.getDoc_of_mem db d0 hwf hd0docs
    have hidd0 : d0.get "_id" = some (Val.str d0.idStr) :=
      Obj.idStr_of_strId d0 (hwf.1 d0 hd0docs)
    have hupd : ∀ k, k ≠ "updatedAt" →
        Obj.get (d0 ++ ((data ++ [("organizationId", orgId)]) ++
          [("updatedAt", Val.str n)])) k =
        (Obj.get (data ++ [("organizationId", orgId)]) k).or (d0.get k) := by
      intro k hk
      rw [Obj.get_append, Obj.get_append, Obj.get_singleton,
        if_neg (fun hh => hk hh.symm), Option.none_or]
    have hgid : Obj.get (d0 ++ ((data ++ [("organizationId", orgId)]) ++
        [("updatedAt", Val.str n)])) "_id" = some (Val.str d0.idStr) := by
      rw [hupd "_id" (by decide), hp_id2, Option.none_or, hidd0]
    have hgrev : Obj.get (d0 ++ ((data ++ [("organizationId", orgId)]) ++
        [("updatedAt", Val.str n)])) "_rev" = d0.get "_rev" := by
      rw [hupd "_rev" (by decide), hp_rev2, Option.none_or]
    have hput := DB.put_existing db (d0 ++ ((data ++ [("organizationId", orgId)]) ++
        [("updatedAt", Val.str n)])) d0.idStr d0 hgid hget0 (by rw [hgrev])
      (by rw [hgrev]; exact hrevs d0 hd0docs)
    have hupdres : Storage.update db d0.idStr (data ++ [("organizationId", orgId)]) n =
        Except.ok ((d0 ++ ((data ++ [("organizationId", orgId)]) ++
            [("updatedAt", Val.str n)])) ++ [("_rev", Val.num db.nextRev)],
          ⟨db.docs.map (fun d =>
            if d.get "_id" == some (Val.str d0.idStr) then
              (d0 ++ ((data ++ [("organizationId", orgId)]) ++
                [("updatedAt", Val.str n)])) ++ [("_rev", Val.num db.nextRev)]
            else d), db.nextRev + 1⟩) := by
      rw [Storage.update_eq_of_get db d0.idStr (data ++ [("organizationId", orgId)]) n d0
        hget0]
      rw [List.append_assoc, hput]
    have hrg : ∀ k, k ≠ "_rev" → k ≠ "updatedAt" →
        ((d0 ++ ((data ++ [("organizationId", orgId)]) ++ [("updatedAt", Val.str n)])) ++
          [("_rev", Val.num db.nextRev)]).get k =
        (Obj.get (data ++ [("organizationId", orgId)]) k).or (d0.get k) := by
      intro k h1 h2
      rw [Obj.get_append, Obj.get_singleton, if_neg (fun hh => h1 hh.symm), Option.none_or,
        hupd k h2]
    have hr_id : ((d0 ++ ((data ++ [("organizationId", orgId)]) ++
        [("updatedAt", Val.str n)])) ++ [("_rev", Val.num db.nextRev)]).get "_id" =
        some (Val.str d0.idStr) := by
      rw [hrg "_id" (by decide) (by decide), hp_id2, Option.none_or, hidd0]
    have hr_ty : ((d0 ++ ((data ++ [("organizationId", orgId)]) ++
        [("updatedAt", Val.str n)])) ++ [("_rev", Val.num db.nextRev)]).get "type" =
        some (Val.str kind) := by
      rw [hrg "type" (by decide) (by decide), hp_ty2, Option.none_or, hd0ty]
    have hr_u : ((d0 ++ ((data ++ [("organizationId", orgId)]) ++
        [("updatedAt", Val.str n)])) ++ [("_rev", Val.num db.nextRev)]).get "userId" =
        some u := by
      rw [hrg "userId" (by decide) (by decide), hp_u2, Option.or_some]
    have hr_dt : ((d0 ++ ((data ++ [("organizationId", orgId)]) ++
        [("updatedAt", Val.str n)])) ++ [("_rev", Val.num db.nextRev)]).get dateField =
        some dt := by
      rw [hrg dateField hdf4 hdf2, hp_dt2, Option.or_some]
    have hmr : matchesRec kind dateField u dt ((d0 ++ ((data ++
        [("organizationId", orgId)]) ++ [("updatedAt", Val.str n)])) ++
        [("_rev", Val.num db.nextRev)]) = true := by
      unfold matchesRec
      rw [hr_ty, hr_u, hr_dt, beq_self_eq_true, beq_self_eq_true, beq_self_eq_true]
      rfl
    have hr_idStr : ((d0 ++ ((data ++ [("organizationId", orgId)]) ++
        [("updatedAt", Val.str n)])) ++ [("_rev", Val.num db.nextRev)]).idStr = d0.idStr :=
      Obj.idStr_of_get _ _ hr_id
    have hcond_iff : ∀ x ∈ db.docs,
        ((x.get "_id" == some (Val.str d0.idStr)) = true ↔ x = d0) := by
      intro x hx
      constructor
      · intro hb
        have hxe := beq_iff_eq.mp hb
        rw [Obj.idStr_of_strId x (hwf.1 x hx)] at hxe
        injection hxe with hxe2
        injection hxe2 with hxe3
        exact List.inj_on_of_nodup_map hwf.2 hx hd0docs hxe3
      · intro hxe
        rw [hxe, hidd0]
        exact beq_self_eq_true _
    refine ⟨(d0 ++ ((data ++ [("organizationId", orgId)]) ++ [("updatedAt", Val.str n)])) ++
        [("_rev", Val.num db.nextRev)],
      ⟨db.docs.map (fun d =>
        if d.get "_id" == some (Val.str d0.idStr) then
          (d0 ++ ((data ++ [("organizationId", orgId)]) ++ [("updatedAt", Val.str n)])) ++
            [("_rev", Val.num db.nextRev)]
        else d), db.nextRev + 1⟩, ?_, ?_, ?_, ?_, ?_, ?_⟩
    · unfold Storage.upsertRecord
      rw [hfindeq, hfl]
      exact hupdres
    · unfold countRec
      show (List.filter _ (db.docs.map _)).length = 1
      rw [← List.countP_eq_length_filter, List.countP_map]
      have hc1 : List.countP ((matchesRec kind dateField u dt) ∘ (fun d =>
          if d.get "_id" == some (Val.str d0.idStr) then
            (d0 ++ ((data ++ [("organizationId", orgId)]) ++ [("updatedAt", Val.str n)])) ++
              [("_rev", Val.num db.nextRev)]
          else d)) db.docs = List.countP (matchesRec kind dateField u dt) db.docs := by
        apply List.countP_congr
        intro x hx
        show matchesRec kind dateField u dt
            (if x.get "_id" == some (Val.str d0.idStr) then _ else x) = true ↔ _
        cases hb : (x.get "_id" == some (Val.str d0.idStr)) with
        | true =>
          rw [if_pos rfl]
          have hxd0 : x = d0 := (hcond_iff x hx).mp hb
          rw [hmr, hxd0, hd0m]
        | false =>
          rw [if_neg Bool.false_ne_true]
      rw [hc1, List.countP_eq_length_filter, hfl]
      rfl
    · constructor
      · intro d hdm
        obtain ⟨x, hx, hgx⟩ := List.mem_map.mp hdm
        rw [← hgx]
        cases hb : (x.get "_id" == some (Val.str d0.idStr)) with
        | true =>
          rw [if_pos rfl]
          unfold strId
          rw [hr_id]
        | false =>
          rw [if_neg Bool.false_ne_true]
          exact hwf.1 x hx
      · have hmapeq : List.map Obj.idStr (db.docs.map (fun d =>
            if d.get "_id" == some (Val.str d0.idStr) then
              (d0 ++ ((data ++ [("organizationId", orgId)]) ++
                [("updatedAt", Val.str n)])) ++ [("_rev", Val.num db.nextRev)]
            else d)) = List.map Obj.idStr db.docs := by
          rw [List.map_map]
          apply List.map_congr_left
          intro x hx
          show Obj.idStr (if x.get "_id" == some (Val.str d0.idStr) then _ else x) = _
          cases hb : (x.get "_id" == some (Val.str d0.idStr)) with
          | true =>
            rw [if_pos rfl, hr_idStr]
            rw [(hcond_iff x hx).mp hb]
          | false =>
            rw [if_neg Bool.false_ne_true]
        show (List.map Obj.idStr (db.docs.map _)).Nodup
        rw [hmapeq]
        exact hwf.2
    · intro d hdm
      obtain ⟨x, hx, hgx⟩ := List.mem_map.mp hdm
      rw [← hgx]
      cases hb : (x.get "_id" == some (Val.str d0.idStr)) with
      | true =>
        rw [if_pos rfl, Obj.get_append, Obj.get_singleton, if_pos rfl, Option.or_some]
        rfl
      | false =>
        rw [if_neg Bool.false_ne_true]
        exact hrevs x hx
    · intro i hi
      have hmapeq : List.map Obj.idStr (db.docs.map (fun d =>
          if d.get "_id" == some (Val.str d0.idStr) then
            (d0 ++ ((data ++ [("organizationId", orgId)]) ++
              [("updatedAt", Val.str n)])) ++ [("_rev", Val.num db.nextRev)]
          else d)) = List.map Obj.idStr db.docs := by
        rw [List.map_map]
        apply List.map_congr_left
        intro x hx
        show Obj.idStr (if x.get "_id" == some (Val.str d0.idStr) then _ else x) = _
        cases hb : (x.get "_id" == some (Val.str d0.idStr)) with
        | true =>
          rw [if_pos rfl, hr_idStr]
          rw [(hcond_iff x hx).mp hb]
        | false =>
          rw [if_neg Bool.false_ne_true]
      rw [hmapeq] at hi
      exact Or.inl hi
    · intro d hdm hmatch k hk hk1 hk2 hk3 hk4
      obtain ⟨x, hx, hgx⟩ := List.mem_map.mp hdm
      cases hb : (x.get "_id" == some (Val.str d0.idStr)) with
      | true =>
        rw [← hgx, if_pos hb]
        rw [hrg k hk4 hk2, hp2 k hk1]
        cases hdk : data.get k with
        | none => rw [hdk] at hk; exact absurd hk (by simp)
        | some v => rw [Option.or_some]
      | false =>
        exfalso
        rw [← hgx, if_neg (by rw [hb]; exact Bool.false_ne_true)] at hmatch
        have hxf : x ∈ db.docs.filter (matchesRec kind dateField u dt) :=
          List.mem_filter.mpr ⟨hx, hmatch⟩
        rw [hfl] at hxf
        rcases List.mem_cons.mp hxf with heq | hn
        · rw [heq, hidd0] at hb
          rw [beq_self_eq_true] at hb
          exact Bool.noConfusion hb
        · exact absurd hn (List.not_mem_nil x)

/-- Any nonempty pre-resolved upsert sequence targeting one `(u, dt)` pair
succeeds and leaves exactly one matching record, whose supplied fields are
those of the last call. -/
theorem runUpsertSeq_ok (kind dateField : String) (u dt : Val)
    (calls : List (Val × Obj × String × String)) (db : DB)
    (hwf : WellFormed db) (hrevs : AllRev db)
    (hcnt : countRec kind dateField u dt db ≤ 1)
    (hclean : ∀ c ∈ calls, CleanData dateField u dt c.2.1)
    (hdf1 : dateField ≠ "organizationId") (hdf2 : dateField ≠ "updatedAt")
    (hdf3 : dateField ≠ "createdAt") (hdf4 : dateField ≠ "_rev")
    (hgen : (calls.map (fun c => kind ++ "_" ++ c.2.2.1)).Nodup)
    (hfreshAll : ∀ c ∈ calls, (kind ++ "_" ++ c.2.2.1) ∉ db.docs.map Obj.idStr)
    (hne : calls ≠ []) :
    ∃ db2, runUpsertSeq kind dateField db calls = Except.ok db2 ∧
      countRec kind dateField u dt db2 = 1 ∧
      (∀ lastc, calls.getLast? = some lastc →
        ∀ d ∈ db2.docs, matchesRec kind dateField u dt d = true →
          ∀ k, (lastc.2.1.get k).isSome = true → k ≠ "organizationId" →
            k ≠ "updatedAt" → k ≠ "createdAt" → k ≠ "_rev" →
            d.get k = lastc.2.1.get k) := by
  induction calls generalizing db with
  | nil => exact absurd rfl hne
  | cons c rest ih =>
    have hfreshc : db.getDoc (kind ++ "_" ++ c.2.2.1) = none :=
      DB.getDoc_none_of_fresh db _ hwf.1 (hfreshAll c (List.mem_cons_self c rest))
    obtain ⟨r, db1, hstep, hcnt1, hwf1, hrev1, hids1, hfield1⟩ :=
      upsertRecord_step kind dateField c.1 u dt db c.2.1 c.2.2.1 c.2.2.2 hwf hrevs
        (hclean c (List.mem_cons_self c rest)) hdf1 hdf2 hdf3 hdf4 hcnt hfreshc
    cases rest with
    | nil =>
      refine ⟨db1, ?_, hcnt1, ?_⟩
      · show (match Storage.upsertRecord kind dateField c.1 db c.2.1 c.2.2.1 c.2.2.2 with
          | Except.ok (_, db2) => runUpsertSeq kind dateField db2 []
          | Except.error e => Except.error e) = Except.ok db1
        rw [hstep]
        rfl
      · intro lastc hlast d hd hm k hk h1 h2 h3 h4
        have hceq : ([c] : List (Val × Obj × String × String)).getLast? = some c := rfl
        rw [hceq] at hlast
        injection hlast with hlast2
        subst hlast2
        exact hfield1 d hd hm k hk h1 h2 h3 h4
    | cons c2 rest2 =>
      have hclean2 : ∀ c2i ∈ c2 :: rest2, CleanData dateField u dt c2i.2.1 :=
        fun c2i hc2i => hclean c2i (List.mem_cons_of_mem c hc2i)
      have hgen0 := hgen
      rw [List.map_cons, List.nodup_cons] at hgen0
      have hfresh2 : ∀ c2i ∈ c2 :: rest2,
          (kind ++ "_" ++ c2i.2.2.1) ∉ db1.docs.map Obj.idStr := by
        intro c2i hc2i hmem
        rcases hids1 _ hmem with hold | hgenid
        · exact hfreshAll c2i (List.mem_cons_of_mem c hc2i) hold
        · exact hgen0.1 (hgenid ▸ List.mem_map.mpr ⟨c2i, hc2i, rfl⟩)
      obtain ⟨db2, hrun2, hcnt2, hfield2⟩ := ih db1 hwf1 hrev1 (le_of_eq hcnt1)
        hclean2 hgen0.2 hfresh2 (by intro hh; exact List.noConfusion hh)
      refine ⟨db2, ?_, hcnt2, ?_⟩
      · show (match Storage.upsertRecord kind dateField c.1 db c.2.1 c.2.2.1 c.2.2.2 with
          | Except.ok (_, db2) => runUpsertSeq kind dateField db2 (c2 :: rest2)
          | Except.error e => Except.error e) = Except.ok db2
        rw [hstep]
        exact hrun2
      · intro lastc hlast
        rw [List.getLast?_cons_cons] at hlast
        exact hfield2 lastc hlast

/-- The per-call organization resolution of `saveDailyRecord`:
`data.organizationId || currentUser?.organizationId`. -/
def resolveDailyCall (c : Option Obj × Obj × String × String) :
    Val × Obj × String × String :=
  (jsOr (c.2.1.get "organizationId")
    (jsOr (c.1.bind (fun uu => uu.get "organizationId")) Val.null),
   c.2.1, c.2.2.1, c.2.2.2)

/-- The per-call organization resolution of `saveAttendance`:
`currentUser?.organizationId`. -/
def resolveAttendanceCall (c : Option Obj × Obj × String × String) :
    Val × Obj × String × String :=
  (jsOr (c.1.bind (fun uu => uu.get "organizationId")) Val.null,
   c.2.1, c.2.2.1, c.2.2.2)

theorem runDailySeq_eq (db : DB) (calls : List (Option Obj × Obj × String × String)) :
    runDailySeq db calls =
      runUpsertSeq "daily_record" "recordDate" db (calls.map resolveDailyCall) := by
  induction calls generalizing db with
  | nil => rfl
  | cons c rest ih =>
    have hEq : Storage.saveDailyRecord db c.1 c.2.1 c.2.2.1 c.2.2.2 =
        Storage.upsertRecord "daily_record" "recordDate" (resolveDailyCall c).1 db
          (resolveDailyCall c).2.1 (resolveDailyCall c).2.2.1 (resolveDailyCall c).2.2.2 := rfl
    simp only [runDailySeq, runUpsertSeq, List.map_cons]
    rw [hEq]
    cases hc : Storage.upsertRecord "daily_record" "recordDate" (resolveDailyCall c).1 db
        (resolveDailyCall c).2.1 (resolveDailyCall c).2.2.1 (resolveDailyCall c).2.2.2 with
    | ok p =>
      obtain ⟨r, db2⟩ := p
      exact ih db2
    | error e => rfl

theorem runAttendanceSeq_eq (db : DB)
    (calls : List (Option Obj × Obj × String × String)) :
    runAttendanceSeq db calls =
      runUpsertSeq "attendance" "attendanceDate" db (calls.map resolveAttendanceCall) := by
  induction calls generalizing db with
  | nil => rfl
  | cons c rest ih =>
    have hEq : Storage.saveAttendance db c.1 c.2.1 c.2.2.1 c.2.2.2 =
        Storage.upsertRecord "attendance" "attendanceDate" (resolveAttendanceCall c).1 db
          (resolveAttendanceCall c).2.1 (resolveAttendanceCall c).2.2.1
          (resolveAttendanceCall c).2.2.2 := rfl
    simp only [runAttendanceSeq, runUpsertSeq, List.map_cons]
    rw [hEq]
    cases hc : Storage.upsertRecord "attendance" "attendanceDate" (resolveAttendanceCall c).1
        db (resolveAttendanceCall c).2.1 (resolveAttendanceCall c).2.2.1
        (resolveAttendanceCall c).2.2.2 with
    | ok p =>
      obtain ⟨r, db2⟩ := p
      exact ih db2
    | error e => rfl

theorem getLast?_map_eq {α β : Type} (f : α → β) (l : List α) :
    (l.map f).getLast? = (l.getLast?).map f := by
  induction l with
  | nil => rfl
  | cons a t ih =>
    cases t with
    | nil => rfl
    | cons b t2 =>
      rw [List.map_cons, List.map_cons, List.getLast?_cons_cons, ← List.map_cons,
        List.getLast?_cons_cons]
      exact ih

/-- C1: for every `(userId, recordDate)` pair, any nonempty sequence of
`saveDailyRecord` calls targeting that pair on a well-formed store that is
initially duplicate-free for the pair succeeds and leaves **exactly one**
`daily_record` document with that `(userId, recordDate)`, and its
observation fields (e.g. `temperature`) are those supplied by the last
call; the same one-per-`(userId, attendanceDate)` invariant holds for
`saveAttendance`.  Each call's payload targets the pair and carries no
envelope keys (as at every call site), and the per-call generated id
suffixes are fresh and pairwise distinct (as the timestamp-random ids
are). -/
theorem upsert_one_record_per_user_date :
    (∀ (db : DB) (u dt : Val) (calls : List (Option Obj × Obj × String × String)),
      WellFormed db → AllRev db →
      countRec "daily_record" "recordDate" u dt db ≤ 1 →
      (∀ c ∈ calls, CleanData "recordDate" u dt c.2.1) →
      (calls.map (fun c => "daily_record" ++ "_" ++ c.2.2.1)).Nodup →
      (∀ c ∈ calls, ("daily_record" ++ "_" ++ c.2.2.1) ∉ db.docs.map Obj.idStr) →
      calls ≠ [] →
      ∃ db2, runDailySeq db calls = Except.ok db2 ∧
        countRec "daily_record" "recordDate" u dt db2 = 1 ∧
        (∀ lastc, calls.getLast? = some lastc →
          ∀ d ∈ db2.docs, matchesRec "daily_record" "recordDate" u dt d = true →
            ∀ k, (lastc.2.1.get k).isSome = true → k ≠ "organizationId" →
              k ≠ "updatedAt" → k ≠ "createdAt" → k ≠ "_rev" →
              d.get k = lastc.2.1.get k)) ∧
    (∀ (db : DB) (u dt : Val) (calls : List (Option Obj × Obj × String × String)),
      WellFormed db → AllRev db →
      countRec "attendance" "attendanceDate" u dt db ≤ 1 →
      (∀ c ∈ calls, CleanData "attendanceDate" u dt c.2.1) →
      (calls.map (fun c => "attendance" ++ "_" ++ c.2.2.1)).Nodup →
      (∀ c ∈ calls, ("attendance" ++ "_" ++ c.2.2.1) ∉ db.docs.map Obj.idStr) →
      calls ≠ [] →
      ∃ db2, runAttendanceSeq db calls = Except.ok db2 ∧
        countRec "attendance" "attendanceDate" u dt db2 = 1 ∧
        (∀ lastc, calls.getLast? = some lastc →
          ∀ d ∈ db2.docs, matchesRec "attendance" "attendanceDate" u dt d = true →
            ∀ k, (lastc.2.1.get k).isSome = true → k ≠ "organizationId" →
              k ≠ "updatedAt" → k ≠ "createdAt" → k ≠ "_rev" →
              d.get k = lastc.2.1.get k)) := by
  constructor
  · intro db u dt calls hwf hrevs hcnt hclean hgen hfresh hne
    rw [runDailySeq_eq db calls]
    have hmapne : calls.map resolveDailyCall ≠ [] := by
      cases calls with
      | nil => exact absurd rfl hne
      | cons a b => intro hh; exact List.noConfusion hh
    have hclean2 : ∀ c2 ∈ calls.map resolveDailyCall,
        CleanData "recordDate" u dt c2.2.1 := by
      intro c2 hc2
      obtain ⟨c, hc, rfl⟩ := List.mem_map.mp hc2
      exact hclean c hc
    have hgen2 : ((calls.map resolveDailyCall).map
        (fun c => "daily_record" ++ "_" ++ c.2.2.1)).Nodup := by
      rw [List.map_map]
      exact hgen
    have hfresh2 : ∀ c2 ∈ calls.map resolveDailyCall,
        ("daily_record" ++ "_" ++ c2.2.2.1) ∉ db.docs.map Obj.idStr := by
      intro c2 hc2
      obtain ⟨c, hc, rfl⟩ := List.mem_map.mp hc2
      exact hfresh c hc
    obtain ⟨db2, hrun, hcnt2, hfield⟩ := runUpsertSeq_ok "daily_record" "recordDate" u dt
      (calls.map resolveDailyCall) db hwf hrevs hcnt hclean2 (by decide) (by decide)
      (by decide) (by decide) hgen2 hfresh2 hmapne
    refine ⟨db2, hrun, hcnt2, ?_⟩
    intro lastc hlast d hd hm k hk h1 h2 h3 h4
    have hlast2 : (calls.map resolveDailyCall).getLast? = some (resolveDailyCall lastc) := by
      rw [getLast?_map_eq, hlast]
      rfl
    exact hfield (resolveDailyCall lastc) hlast2 d hd hm k hk h1 h2 h3 h4
  · intro db u dt calls hwf hrevs hcnt hclean hgen hfresh hne
    rw [runAttendanceSeq_eq db calls]
    have hmapne : calls.map resolveAttendanceCall ≠ [] := by
      cases calls with
      | nil => exact absurd rfl hne
      | cons a b => intro hh; exact List.noConfusion hh
    have hclean2 : ∀ c2 ∈ calls.map resolveAttendanceCall,
        CleanData "attendanceDate" u dt c2.2.1 := by
      intro c2 hc2
      obtain ⟨c, hc, rfl⟩ := List.mem_map.mp hc2
      exact hclean c hc
    have hgen2 : ((calls.map resolveAttendanceCall).map
        (fun c => "attendance" ++ "_" ++ c.2.2.1)).Nodup := by
      rw [List.map_map]
      exact hgen
    have hfresh2 : ∀ c2 ∈ calls.map resolveAttendanceCall,
        ("attendance" ++ "_" ++ c2.2.2.1) ∉ db.docs.map Obj.idStr := by
      intro c2 hc2
      obtain ⟨c, hc, rfl⟩ := List.mem_map.mp hc2
      exact hfresh c hc
    obtain ⟨db2, hrun, hcnt2, hfield⟩ := runUpsertSeq_ok "attendance" "attendanceDate" u dt
      (calls.map resolveAttendanceCall) db hwf hrevs hcnt hclean2 (by decide) (by decide)
      (by decide) (by decide) hgen2 hfresh2 hmapne
    refine ⟨db2, hrun, hcnt2, ?_⟩
    intro lastc hlast d hd hm k hk h1 h2 h3 h4
    have hlast2 : (calls.map resolveAttendanceCall).getLast? =
        some (resolveAttendanceCall lastc) := by
      rw [getLast?_map_eq, hlast]
      rfl
    exact hfield (resolveAttendanceCall lastc) hlast2 d hd hm k hk h1 h2 h3 h4

/-- Witness for C1: the spec scenario — two `saveDailyRecord` calls for
`(u1, 2024-05-01)` with temperatures `36.5` then `37.0` on an empty store
leave exactly one matching daily record, whose `temperature` is that of
the last call. -/
theorem upsert_one_record_per_user_date_witness :
    ∃ db2, runDailySeq emptyDB
        [(none, [("userId", Val.str "u1"), ("recordDate", Val.str "2024-05-01"),
           ("temperature", Val.str "36.5")], "f1", "t1"),
         (none, [("userId", Val.str "u1"), ("recordDate", Val.str "2024-05-01"),
           ("temperature", Val.str "37.0")], "f2", "t2")] = Except.ok db2 ∧
      countRec "daily_record" "recordDate" (Val.str "u1") (Val.str "2024-05-01") db2 = 1 ∧
      (∀ lastc, ([(none, [("userId", Val.str "u1"), ("recordDate", Val.str "2024-05-01"),
             ("temperature", Val.str "36.5")], "f1", "t1"),
           ((none : Option Obj), [("userId", Val.str "u1"),
             ("recordDate", Val.str "2024-05-01"),
             ("temperature", Val.str "37.0")], "f2", "t2")] :
            List (Option Obj × Obj × String × String)).getLast? = some lastc →
        ∀ d ∈ db2.docs, matchesRec "daily_record" "recordDate" (Val.str "u1")
            (Val.str "2024-05-01") d = true →
          ∀ k, (lastc.2.1.get k).isSome = true → k ≠ "organizationId" →
            k ≠ "updatedAt" → k ≠ "createdAt" → k ≠ "_rev" →
            d.get k = lastc.2.1.get k) :=
  upsert_one_record_per_user_date.1 emptyDB (Val.str "u1") (Val.str "2024-05-01")
    [(none, [("userId", Val.str "u1"), ("recordDate", Val.str "2024-05-01"),
       ("temperature", Val.str "36.5")], "f1", "t1"),
     (none, [("userId", Val.str "u1"), ("recordDate", Val.str "2024-05-01"),
       ("temperature", Val.str "37.0")], "f2", "t2")]
    (by decide) (by decide) (by decide) (by decide) (by decide) (by decide) (by decide)

end Whale
